import Mathlib

/-!
Shallow embedding of the packetd nfqueue dispatch core (package `dispatch`),
translated from the Go source: `nfqueueCallback`, `callSubscribers`,
`ReleaseSession`, `MirrorNfqueueSubscriptions`, `AttachNfqueueSubscriptions`,
`createSessionEntry`, `lookupSessionEntry` and the subscription registry.

Go maps are modelled as association lists with replace-on-insert semantics.
Pointer mutation of a `SessionEntry` is modelled by updating the session
table at the (unique) key under which the record is stored; the dispatch
threads that key explicitly.  Handler goroutines are modelled as pure
functions returning `Option NfqueueResult`: `some r` is normal completion
with result `r`, `none` models the 30-second guard timer firing first
(in which case the dispatch synthesizes
`NfqueueResult{Owner: key, PacketMark: 0, SessionRelease: true}`,
exactly as the `select` in `callSubscribers` does).
-/

namespace Packetd

/-- Association list lookup, modelling Go map indexing. -/
def alistLookup {α β : Type} [DecidableEq α] (k : α) : List (α × β) → Option β
  | [] => none
  | kv :: t => if kv.1 = k then some kv.2 else alistLookup k t

/-- Association list erase, modelling Go `delete(m, k)`. -/
def alistErase {α β : Type} [DecidableEq α] (k : α) : List (α × β) → List (α × β)
  | [] => []
  | kv :: t => if kv.1 = k then alistErase k t else kv :: alistErase k t

/-- Association list insert with replacement, modelling Go `m[k] = v`. -/
def alistInsert {α β : Type} [DecidableEq α] (k : α) (v : β) (l : List (α × β)) :
    List (α × β) :=
  (k, v) :: alistErase k l

/-- The canonical 5-tuple (`Tuple` in the source); IP addresses are modelled
as strings (their printed form, which is all the dispatch uses). -/
structure Tuple where
  Protocol : Nat
  ClientAddress : String
  ClientPort : Nat
  ServerAddress : String
  ServerPort : Nat
deriving DecidableEq

/-- Modelled from the spec: the forward canonical string form
`"proto|client:cport-server:sport"` (`Tuple.String` lives in a repository
file not under src/; the format follows spec section 3 and the analogous
`Tuple2String` in src/support/support.go). -/
def Tuple.fwdString (t : Tuple) : String :=
  toString t.Protocol ++ "|" ++ t.ClientAddress ++ ":" ++ toString t.ClientPort
    ++ "-" ++ t.ServerAddress ++ ":" ++ toString t.ServerPort

/-- Modelled from the spec: the reverse string form (client/server swapped),
`Tuple.StringReverse` in the source. -/
def Tuple.revString (t : Tuple) : String :=
  Tuple.fwdString ⟨t.Protocol, t.ServerAddress, t.ServerPort, t.ClientAddress, t.ClientPort⟩

/-- `NfDrop` is the NF_DROP constant. -/
def NfDrop : Int := 0

/-- `NfAccept` is the NF_ACCEPT constant. -/
def NfAccept : Int := 1

/-- `NfqueueResult` returned from a subscription handler function. -/
structure NfqueueResult where
  Owner : String
  PacketMark : Nat
  SessionRelease : Bool
deriving DecidableEq

/-- The arguments a handler actually depends on: the parsed message data
`(MsgTuple, Length, ClientToServer)` plus the `ctid` and `newSession`
arguments of `NfqueueHandlerFunction`. -/
structure HandlerInput where
  MsgTuple : Tuple
  Length : Nat
  CtidArg : Nat
  NewSessionArg : Bool
  ClientToServer : Bool
deriving DecidableEq

/-- A handler: `some r` = completed with result `r` before the guard timer,
`none` = pre-empted by the 30-second guard timer. -/
def HandlerFn : Type := HandlerInput → Option NfqueueResult

/-- `SubscriptionHolder` (dispatch package); only the nfqueue fields are
relevant to the dispatch core. -/
structure SubscriptionHolder where
  Owner : String
  Priority : Int
  NfqueueFunc : HandlerFn

/-- `SessionEntry`: the per-flow record (`attachments` carries no dispatch
logic and is omitted).  Times are abstract instants (naturals). -/
structure SessionEntry where
  SessionID : Nat
  ConntrackID : Nat
  ConntrackConfirmed : Bool
  ClientSideTuple : Tuple
  CreationTime : Nat
  LastActivityTime : Nat
  PacketCount : Nat
  ByteCount : Nat
  EventCount : Nat
  subscriptions : List (String × SubscriptionHolder)

/-- The mutable process state touched by the dispatch: the session table
(keyed by forward tuple string), the dict side channel, the session-ID
counter and the global subscription registry `nfqueueList`. -/
structure DState where
  sessionTable : List (String × SessionEntry)
  dict : List ((Nat × String) × Bool)
  sessionIndex : Nat
  nfqueueList : List (String × SubscriptionHolder)

/-- `dict.AddSessionEntry(ctid, key, value)`: write a per-session dictionary
entry (the kernel side channel). -/
def AddSessionEntry (ctid : Nat) (k : String) (v : Bool) (st : DState) : DState :=
  { st with dict := alistInsert (ctid, k) v st.dict }

/-- Modelled from the spec: `findSessionEntry` of the session table (table
code is in a repository file not under src/; spec section 4.1). -/
def findSessionEntry (st : DState) (k : String) : Option SessionEntry :=
  alistLookup k st.sessionTable

/-- Modelled from the spec: `insertSessionEntry` (replaces any prior entry
with the same key; spec section 4.1). -/
def insertSessionEntry (k : String) (s : SessionEntry) (st : DState) : DState :=
  { st with sessionTable := alistInsert k s st.sessionTable }

/-- Modelled from the spec: `removeSessionEntry` (spec section 4.1). -/
def removeSessionEntry (k : String) (st : DState) : DState :=
  { st with sessionTable := alistErase k st.sessionTable }

/-- Modelled from the spec: `nextSessionID`, the monotonic session-ID
counter (spec sections 3 and 6: strictly increasing within a process). -/
def nextSessionID (st : DState) : Nat × DState :=
  (st.sessionIndex + 1, { st with sessionIndex := st.sessionIndex + 1 })

/-- `AttachNfqueueSubscriptions`: snapshot the registry into the session. -/
def AttachNfqueueSubscriptions (st : DState) (s : SessionEntry) : SessionEntry :=
  { s with subscriptions := st.nfqueueList }

/-- `MirrorNfqueueSubscriptions`: copy of the session's subscriptions. -/
def MirrorNfqueueSubscriptions (s : SessionEntry) : List (String × SubscriptionHolder) :=
  s.subscriptions

/-- `ReleaseSession(session, owner)`: stop receiving traffic for a session.
The session pointer is addressed by its table key `key`. -/
def ReleaseSession (key owner : String) (st : DState) : DState :=
  match findSessionEntry st key with
  | none => st
  | some s =>
    if s.subscriptions.length = 0 then st
    else
      let subs := alistErase owner s.subscriptions
      let st1 := insertSessionEntry key { s with subscriptions := subs } st
      if subs.length = 0 then
        AddSessionEntry s.ConntrackID "bypass_packetd" true st1
      else st1

/-- `createSessionEntry`: allocate a session, init counters, snapshot the
subscription registry, insert under the forward tuple string. -/
def createSessionEntry (tup : Tuple) (ctid : Nat) (packetLength now : Nat)
    (st : DState) : SessionEntry × DState :=
  let idst := nextSessionID st
  let s : SessionEntry :=
    AttachNfqueueSubscriptions idst.2
      { SessionID := idst.1
        ConntrackID := ctid
        ConntrackConfirmed := false
        ClientSideTuple := tup
        CreationTime := now
        LastActivityTime := now
        PacketCount := 1
        ByteCount := packetLength
        EventCount := 1
        subscriptions := [] }
  (s, insertSessionEntry (Tuple.fwdString tup) s idst.2)

/-- `lookupSessionEntry`: probe the forward tuple string, then the reverse;
returns the table key where the session was found together with the
direction flag (`true` = forward). -/
def lookupSessionEntry (st : DState) (tup : Tuple) :
    Option (String × SessionEntry × Bool) :=
  match findSessionEntry st (Tuple.fwdString tup) with
  | some s => some (Tuple.fwdString tup, s, true)
  | none =>
    match findSessionEntry st (Tuple.revString tup) with
    | some s => some (Tuple.revString tup, s, false)
    | none => none

/-- Result of one handler invocation as merged by `callSubscribers`: the
handler's own result on completion, or the synthesized
`{Owner: key, PacketMark: 0, SessionRelease: true}` on guard-timer expiry. -/
def resultOf (inp : HandlerInput) (kv : String × SubscriptionHolder) : NfqueueResult :=
  match kv.2.NfqueueFunc inp with
  | some r => r
  | none => ⟨kv.1, 0, true⟩

/-- The subscribers at one priority level (one parallel wave). -/
def layerOf (sublist : List (String × SubscriptionHolder)) (p : Nat) :
    List (String × SubscriptionHolder) :=
  sublist.filter (fun kv => kv.2.Priority == (p : Int))

/-- Collect the mark bits and apply releases for one wave of results,
exactly as the result-channel drain loop in `callSubscribers` does. -/
def mergeResults (key : String) (rs : List (String × NfqueueResult))
    (pm : Nat) (st : DState) : Nat × DState :=
  rs.foldl
    (fun acc kr =>
      (acc.1 ||| kr.2.PacketMark,
       if kr.2.SessionRelease then ReleaseSession key kr.2.Owner acc.2 else acc.2))
    (pm, st)

/-- The merged results of one priority wave: every subscriber whose priority
equals the current counter is invoked and its merged result collected. -/
def layerResults (inp : HandlerInput) (sublist : List (String × SubscriptionHolder))
    (p : Nat) : List (String × NfqueueResult) :=
  (layerOf sublist p).map (fun kv => (kv.1, resultOf inp kv))

/-- Outcome of the dispatch: normal return `(verdict, mark)` with the final
state, or the fatal `panic` branch.  `invoked` is the list of
`(subscription key, merged result)` pairs collected on the results channel,
in collection order. -/
inductive CallOutcome where
  | ok (verdict : Int) (mark : Nat) (st : DState)
       (invoked : List (String × NfqueueResult))
  | panicked (invoked : List (String × NfqueueResult))

/-- The priority loop of `callSubscribers`.  The Go loop runs
`for subcount != subtotal`, increments `priority` each pass and panics when
`priority` exceeds 100 after a pass; `gas` is `100 - priority`, kept as a
structurally decreasing copy of that bound so `gas = 0` after processing a
layer is exactly the source's `priority + 1 > 100` panic condition. -/
def callLoop (inp : HandlerInput) (key : String)
    (sublist : List (String × SubscriptionHolder)) :
    Nat → Nat → Nat → Nat → DState → List (String × NfqueueResult) → CallOutcome
  | gas, subcount, priority, pm, st, invoked =>
    if subcount = sublist.length then .ok NfAccept pm st invoked
    else
      match gas with
      | 0 => .panicked (invoked ++ layerResults inp sublist priority)
      | g + 1 =>
        callLoop inp key sublist g (subcount + (layerOf sublist priority).length)
          (priority + 1)
          (mergeResults key (layerResults inp sublist priority) pm st).1
          (mergeResults key (layerResults inp sublist priority) pm st).2
          (invoked ++ layerResults inp sublist priority)

/-- `callSubscribers`: snapshot the session's subscriptions and run the
priority loop from priority 0. -/
def callSubscribers (inp : HandlerInput) (key : String) (session : SessionEntry)
    (pmark : Nat) (st : DState) : CallOutcome :=
  callLoop inp key (MirrorNfqueueSubscriptions session) 100 0 0 pmark st []

/-- The L3 view of a packet (source/destination printed addresses and the
protocol / next-header byte). -/
structure IPInfo where
  proto : Nat
  src : String
  dst : String
deriving DecidableEq

/-- A parsed packet: the layers `nfqueueCallback` inspects. -/
structure Packet where
  ip4 : Option IPInfo
  ip6 : Option IPInfo
  tcp : Option (Nat × Nat)
  udp : Option (Nat × Nat)
  icmp4id : Option Nat
deriving DecidableEq

/-- Tuple extraction of `nfqueueCallback`: IPv4 first, else IPv6, else no
tuple; then ports from TCP, then UDP, then the ICMPv4 Id (each later layer
overwriting, in source order). -/
def parsedTuple (p : Packet) : Option Tuple :=
  let base : Option Tuple :=
    match p.ip4 with
    | some i => some ⟨i.proto, i.src, 0, i.dst, 0⟩
    | none =>
      match p.ip6 with
      | some i => some ⟨i.proto, i.src, 0, i.dst, 0⟩
      | none => none
  match base with
  | none => none
  | some t0 =>
    let t1 := match p.tcp with
      | some sd => { t0 with ClientPort := sd.1, ServerPort := sd.2 }
      | none => t0
    let t2 := match p.udp with
      | some sd => { t1 with ClientPort := sd.1, ServerPort := sd.2 }
      | none => t1
    some (match p.icmp4id with
      | some i => { t2 with ClientPort := i, ServerPort := i }
      | none => t2)

/-- The accounting update of `nfqueueCallback` ("Update some accounting
bits"): `LastActivityTime = now`, `PacketCount++`, `ByteCount += length`,
`EventCount++`. -/
def accountSession (now packetLength : Nat) (s : SessionEntry) : SessionEntry :=
  { s with
    LastActivityTime := now
    PacketCount := s.PacketCount + 1
    ByteCount := s.ByteCount + packetLength
    EventCount := s.EventCount + 1 }

/-- The accounting update followed by the fan-out; `key` is the table key of
the resolved session (the stand-in for the Go session pointer). -/
def finishDispatch (ctid : Nat) (key : String) (s : SessionEntry)
    (clientToServer : Bool) (tup : Tuple) (packetLength pmark : Nat)
    (newSession : Bool) (now : Nat) (st : DState) : CallOutcome :=
  callSubscribers ⟨tup, packetLength, ctid, newSession, clientToServer⟩ key
    (accountSession now packetLength s) pmark
    (insertSessionEntry key (accountSession now packetLength s) st)

/-- `nfqueueCallback`: the per-packet dispatch procedure. -/
def nfqueueCallback (ctid : Nat) (packet : Packet) (packetLength pmark : Nat)
    (now : Nat) (st : DState) : CallOutcome :=
  match parsedTuple packet with
  | none => .ok NfAccept pmark st []
  | some tup =>
    let newSession : Bool := pmark &&& 0x10000000 != 0
    match lookupSessionEntry st tup with
    | none =>
      if !newSession then
        .ok NfAccept pmark (AddSessionEntry ctid "bypass_packetd" true st) []
      else
        let cr := createSessionEntry tup ctid packetLength now st
        finishDispatch ctid (Tuple.fwdString tup) cr.1 true tup packetLength pmark
          newSession now cr.2
    | some ksd =>
      let key := ksd.1
      let s := ksd.2.1
      let clientToServer := ksd.2.2
      if newSession then
        if s.ConntrackConfirmed then
          finishDispatch ctid key s clientToServer tup packetLength pmark
            newSession now st
        else
          let st1 := removeSessionEntry (Tuple.fwdString tup) st
          let cr := createSessionEntry tup ctid packetLength now st1
          finishDispatch ctid (Tuple.fwdString tup) cr.1 clientToServer tup
            packetLength pmark newSession now cr.2
      else
        finishDispatch ctid key s clientToServer tup packetLength pmark
          newSession now st

/-- `InsertNfqueueSubscription` (dispatch.go version with the duplicate
check): insert into the registry, then panic if the owner already existed. -/
def InsertNfqueueSubscription (owner : String) (priority : Int) (fn : HandlerFn)
    (l : List (String × SubscriptionHolder)) :
    Except String (List (String × SubscriptionHolder)) :=
  let existing := (alistLookup owner l).isSome
  let l1 := alistInsert owner ⟨owner, priority, fn⟩ l
  if existing then .error "DUPLICATE NFQUEUE SUBSCRIPTION DETECTED!" else .ok l1

/-! ### Derived descriptions of the loop used in the statements and proofs -/

/-- The subscribers of `k` consecutive priority waves starting at `p`. -/
def layersHold (sublist : List (String × SubscriptionHolder)) :
    Nat → Nat → List (String × SubscriptionHolder)
  | _, 0 => []
  | p, k + 1 => layerOf sublist p ++ layersHold sublist (p + 1) k

/-- The merged results of `k` consecutive priority waves starting at `p`. -/
def layersFrom (inp : HandlerInput) (sublist : List (String × SubscriptionHolder)) :
    Nat → Nat → List (String × NfqueueResult)
  | _, 0 => []
  | p, k + 1 => layerResults inp sublist p ++ layersFrom inp sublist (p + 1) k

/-- Sequential application of the session releases requested by a list of
results (the state component of the result-channel drain loop). -/
def applyReleases (key : String) (rs : List (String × NfqueueResult)) (st : DState) :
    DState :=
  rs.foldl
    (fun st kr => if kr.2.SessionRelease then ReleaseSession key kr.2.Owner st else st)
    st

/-- OR-accumulation of the mark bits of a list of results. -/
def markFold (rs : List (String × NfqueueResult)) (a : Nat) : Nat :=
  rs.foldl (fun a kr => a ||| kr.2.PacketMark) a

/-! ### Association-list lemmas -/

theorem alistLookup_insert_self {α β : Type} [DecidableEq α] (k : α) (v : β)
    (l : List (α × β)) : alistLookup k (alistInsert k v l) = some v := by
  simp [alistInsert, alistLookup]

theorem alistLookup_erase_self {α β : Type} [DecidableEq α] (k : α)
    (l : List (α × β)) : alistLookup k (alistErase k l) = none := by
  induction l with
  | nil => simp [alistErase, alistLookup]
  | cons kv t ih =>
    by_cases h : kv.1 = k
    · simpa [alistErase, h] using ih
    · simp [alistErase, h, alistLookup, ih]

theorem alistLookup_erase_ne {α β : Type} [DecidableEq α] {k k' : α}
    (l : List (α × β)) (h : k' ≠ k) :
    alistLookup k' (alistErase k l) = alistLookup k' l := by
  induction l with
  | nil => simp [alistErase]
  | cons kv t ih =>
    have hne : k ≠ k' := fun e => h e.symm
    by_cases hk : kv.1 = k
    · simp [alistErase, hk, alistLookup, hne, ih]
    · by_cases hk' : kv.1 = k'
      · simp [alistErase, hk, alistLookup, hk', h]
      · simp [alistErase, hk, alistLookup, hk', ih]

theorem alistLookup_insert_ne {α β : Type} [DecidableEq α] {k k' : α} (v : β)
    (l : List (α × β)) (h : k' ≠ k) :
    alistLookup k' (alistInsert k v l) = alistLookup k' l := by
  have hne : k ≠ k' := fun e => h e.symm
  simp [alistInsert, alistLookup, hne, alistLookup_erase_ne l h]

theorem alistErase_of_lookup_none {α β : Type} [DecidableEq α] {k : α}
    {l : List (α × β)} (h : alistLookup k l = none) : alistErase k l = l := by
  induction l with
  | nil => rfl
  | cons kv t ih =>
    by_cases hk : kv.1 = k
    · simp [alistLookup, hk] at h
    · simp [alistLookup, hk] at h
      simp [alistErase, hk, ih h]

/-! ### Mark-fold and merge lemmas -/

theorem markFold_append (rs₁ rs₂ : List (String × NfqueueResult)) (a : Nat) :
    markFold (rs₁ ++ rs₂) a = markFold rs₂ (markFold rs₁ a) := by
  simp [markFold, List.foldl_append]

theorem markFold_lor (rs : List (String × NfqueueResult)) (a : Nat) :
    markFold rs a = a ||| markFold rs 0 := by
  induction rs generalizing a with
  | nil => simp [markFold]
  | cons kr t ih =>
    show markFold t (a ||| kr.2.PacketMark) = a ||| markFold t (0 ||| kr.2.PacketMark)
    rw [ih (a ||| kr.2.PacketMark), ih (0 ||| kr.2.PacketMark)]
    simp [Nat.lor_assoc]

theorem mergeResults_fst (key : String) (rs : List (String × NfqueueResult))
    (pm : Nat) (st : DState) : (mergeResults key rs pm st).1 = markFold rs pm := by
  induction rs generalizing pm st with
  | nil => rfl
  | cons kr t ih => exact ih (pm ||| kr.2.PacketMark) _

theorem mergeResults_snd (key : String) (rs : List (String × NfqueueResult))
    (pm : Nat) (st : DState) :
    (mergeResults key rs pm st).2 = applyReleases key rs st := by
  induction rs generalizing pm st with
  | nil => rfl
  | cons kr t ih =>
    show (mergeResults key t _ _).2 = applyReleases key t _
    exact ih _ _

theorem applyReleases_append (key : String) (rs₁ rs₂ : List (String × NfqueueResult))
    (st : DState) :
    applyReleases key (rs₁ ++ rs₂) st = applyReleases key rs₂ (applyReleases key rs₁ st) := by
  simp [applyReleases, List.foldl_append]

/-! ### The master description of the priority loop -/

theorem layersFrom_succ (inp : HandlerInput) (sublist : List (String × SubscriptionHolder))
    (p k : Nat) :
    layersFrom inp sublist p (k + 1)
      = layerResults inp sublist p ++ layersFrom inp sublist (p + 1) k := rfl

theorem layersFrom_eq_map (inp : HandlerInput)
    (sublist : List (String × SubscriptionHolder)) (p k : Nat) :
    layersFrom inp sublist p k
      = (layersHold sublist p k).map (fun kv => (kv.1, resultOf inp kv)) := by
  induction k generalizing p with
  | zero => rfl
  | succ k ih => simp [layersFrom, layersHold, layerResults, ih]

/-- Every normal return of the priority loop is fully described by some
number `k` of processed waves: the collected results are the waves'
results appended to the accumulator, all subscribers were consumed, the
final state applies exactly the requested releases, the verdict is
`NfAccept` and the final mark ORs the collected marks onto the input. -/
theorem callLoop_ok_spec (inp : HandlerInput) (key : String)
    (sublist : List (String × SubscriptionHolder)) :
    ∀ (gas subcount priority pm : Nat) (st : DState)
      (invoked : List (String × NfqueueResult)) (v : Int) (m : Nat) (st' : DState)
      (inv : List (String × NfqueueResult)),
    callLoop inp key sublist gas subcount priority pm st invoked = .ok v m st' inv →
    ∃ k : Nat,
      inv = invoked ++ layersFrom inp sublist priority k ∧
      subcount + (layersFrom inp sublist priority k).length = sublist.length ∧
      st' = applyReleases key (layersFrom inp sublist priority k) st ∧
      v = NfAccept ∧
      m = markFold (layersFrom inp sublist priority k) pm := by
  intro gas
  induction gas with
  | zero =>
    intro sc p pm st acc v m st' inv h
    rw [callLoop] at h
    by_cases hexit : sc = sublist.length
    · rw [if_pos hexit] at h
      cases h
      exact ⟨0, by simp [layersFrom, applyReleases, markFold, hexit]⟩
    · rw [if_neg hexit] at h
      exact absurd h (by simp)
  | succ g ih =>
    intro sc p pm st acc v m st' inv h
    rw [callLoop] at h
    by_cases hexit : sc = sublist.length
    · rw [if_pos hexit] at h
      cases h
      exact ⟨0, by simp [layersFrom, applyReleases, markFold, hexit]⟩
    · rw [if_neg hexit] at h
      obtain ⟨k, hinv, hcount, hst, hv, hm⟩ := ih _ _ _ _ _ _ _ _ _ h
      refine ⟨k + 1, ?_, ?_, ?_, hv, ?_⟩
      · rw [hinv, layersFrom_succ, List.append_assoc]
      · rw [layersFrom_succ]
        simp only [List.length_append, layerResults, List.length_map] at hcount ⊢
        omega
      · rw [hst, layersFrom_succ, applyReleases_append, mergeResults_snd]
      · rw [hm, layersFrom_succ, markFold_append, mergeResults_fst]

/-! ### Permutation: the processed waves cover the snapshot exactly -/

/-- The subscribers whose priority lies in the half-open wave range
`[p, p + k)`. -/
def priIn (p k : Nat) (kv : String × SubscriptionHolder) : Bool :=
  decide ((p : Int) ≤ kv.2.Priority) && decide (kv.2.Priority < (p : Int) + (k : Int))

theorem priIn_iff (p k : Nat) (kv : String × SubscriptionHolder) :
    priIn p k kv = true ↔
      ((p : Int) ≤ kv.2.Priority ∧ kv.2.Priority < (p : Int) + (k : Int)) := by
  simp [priIn]

theorem filter_or_perm {α : Type} (p q : α → Bool) (l : List α)
    (hdisj : ∀ a, ¬(p a = true ∧ q a = true)) :
    (l.filter p ++ l.filter q).Perm (l.filter (fun a => p a || q a)) := by
  induction l with
  | nil => simp
  | cons a t ih =>
    by_cases hp : p a = true
    · have hq : q a = false := by
        have : ¬q a = true := fun hqv => hdisj a ⟨hp, hqv⟩
        simpa using this
      simp only [List.filter_cons, hp, hq, if_true, if_false, Bool.true_or]
      simpa using ih.cons a
    · have hp' : p a = false := by simpa using hp
      by_cases hq : q a = true
      · simp only [List.filter_cons, hp', hq, Bool.false_or, if_true, if_false]
        refine List.Perm.trans List.perm_middle ?_
        simpa using ih.cons a
      · have hq' : q a = false := by simpa using hq
        simpa [List.filter_cons, hp', hq'] using ih

theorem layerOf_eq_filter (sublist : List (String × SubscriptionHolder)) (p : Nat) :
    layerOf sublist p = sublist.filter (priIn p 1) := by
  unfold layerOf
  refine List.filter_congr ?_
  intro kv _
  rw [Bool.eq_iff_iff]
  rw [priIn_iff]
  simp only [beq_iff_eq]
  omega

theorem layersHold_perm (sublist : List (String × SubscriptionHolder)) :
    ∀ (k p : Nat), (layersHold sublist p k).Perm (sublist.filter (priIn p k)) := by
  intro k
  induction k with
  | zero =>
    intro p
    have h0 : sublist.filter (priIn p 0) = [] := by
      refine List.filter_eq_nil_iff.mpr ?_
      intro kv _
      rw [priIn_iff]
      omega
    rw [h0]
    exact List.Perm.refl _
  | succ k ih =>
    intro p
    show (layerOf sublist p ++ layersHold sublist (p + 1) k).Perm _
    refine List.Perm.trans (List.Perm.append (by rw [layerOf_eq_filter]) (ih (p + 1))) ?_
    refine List.Perm.trans (filter_or_perm _ _ sublist ?_) ?_
    · intro kv
      rw [priIn_iff, priIn_iff]
      omega
    · refine List.Perm.of_eq (List.filter_congr ?_)
      intro kv _
      rw [Bool.eq_iff_iff]
      rw [Bool.or_eq_true, priIn_iff, priIn_iff, priIn_iff]
      omega

theorem filter_length_all {α : Type} (p : α → Bool) (l : List α)
    (h : (l.filter p).length = l.length) : ∀ a ∈ l, p a = true := by
  induction l with
  | nil => intro a ha; cases ha
  | cons x t ih =>
    intro a ha
    by_cases hx : p x = true
    · rw [List.filter_cons_of_pos hx] at h
      simp only [List.length_cons] at h
      rcases List.mem_cons.mp ha with rfl | hat
      · exact hx
      · exact ih (by omega) a hat
    · rw [List.filter_cons_of_neg (by simpa using hx)] at h
      simp only [List.length_cons] at h
      have := List.length_filter_le p t
      omega

/-- Packaged description of a normal return of `callSubscribers`: the
verdict is `NfAccept`, the final mark ORs the collected marks onto the
input mark, the final state applies exactly the requested releases, and the
collected results are the merged results of a permutation of the session's
subscription snapshot (every subscriber invoked exactly once). -/
theorem callSubscribers_ok_spec (inp : HandlerInput) (key : String)
    (session : SessionEntry) (pmark : Nat) (st : DState) (v : Int) (m : Nat)
    (st' : DState) (inv : List (String × NfqueueResult))
    (h : callSubscribers inp key session pmark st = .ok v m st' inv) :
    v = NfAccept ∧ m = markFold inv pmark ∧ st' = applyReleases key inv st ∧
    ∃ hold : List (String × SubscriptionHolder),
      inv = hold.map (fun kv => (kv.1, resultOf inp kv)) ∧
      hold.Perm (MirrorNfqueueSubscriptions session) := by
  obtain ⟨k, hinv, hcount, hst, hv, hm⟩ :=
    callLoop_ok_spec inp key (MirrorNfqueueSubscriptions session)
      100 0 0 pmark st [] v m st' inv h
  rw [List.nil_append] at hinv
  subst hinv
  refine ⟨hv, hm, hst, layersHold (MirrorNfqueueSubscriptions session) 0 k,
    layersFrom_eq_map _ _ _ _, ?_⟩
  have hperm := layersHold_perm (MirrorNfqueueSubscriptions session) k 0
  have hlen : (layersHold (MirrorNfqueueSubscriptions session) 0 k).length
      = (MirrorNfqueueSubscriptions session).length := by
    have := congrArg List.length (layersFrom_eq_map inp (MirrorNfqueueSubscriptions session) 0 k)
    simp only [List.length_map] at this
    omega
  have hflen : ((MirrorNfqueueSubscriptions session).filter (priIn 0 k)).length
      = (MirrorNfqueueSubscriptions session).length := by
    rw [← hperm.length_eq]; exact hlen
  have hall := filter_length_all (priIn 0 k) (MirrorNfqueueSubscriptions session) hflen
  have hfeq : (MirrorNfqueueSubscriptions session).filter (priIn 0 k)
      = MirrorNfqueueSubscriptions session := List.filter_eq_self.mpr hall
  rw [hfeq] at hperm
  exact hperm

/-! ### `ReleaseSession` and dict lemmas -/

/-- Value-level characterization of `ReleaseSession` at its own key. -/
theorem ReleaseSession_lookup (key w : String) (st : DState) :
    findSessionEntry (ReleaseSession key w st) key
      = (findSessionEntry st key).map
          (fun s => if s.subscriptions.length = 0 then s
                    else { s with subscriptions := alistErase w s.subscriptions }) := by
  unfold ReleaseSession
  cases hfd : findSessionEntry st key with
  | none => simp [hfd]
  | some s =>
    by_cases hlen : s.subscriptions.length = 0
    · simp [hfd, hlen]
    · by_cases hlen2 : (alistErase w s.subscriptions).length = 0
      · simp only [hfd, hlen, if_false, hlen2, if_true, Option.map_some']
        show findSessionEntry _ key = _
        simp [findSessionEntry, AddSessionEntry, insertSessionEntry,
          alistLookup_insert_self, hlen, hlen2]
      · simp only [hfd, hlen, if_false, hlen2, Option.map_some']
        show findSessionEntry _ key = _
        simp [findSessionEntry, insertSessionEntry, alistLookup_insert_self, hlen]

/-- `ReleaseSession` on one key leaves every other table entry unchanged. -/
theorem ReleaseSession_lookup_other {key key' : String} (w : String) (st : DState)
    (h : key' ≠ key) :
    findSessionEntry (ReleaseSession key w st) key' = findSessionEntry st key' := by
  unfold ReleaseSession
  cases hfd : findSessionEntry st key with
  | none => rfl
  | some s =>
    by_cases hlen : s.subscriptions.length = 0
    · simp [hlen]
    · by_cases hlen2 : (alistErase w s.subscriptions).length = 0
      · simp only [hlen, if_false, hlen2, if_true]
        show findSessionEntry _ key' = _
        simp [findSessionEntry, AddSessionEntry, insertSessionEntry,
          alistLookup_insert_ne _ _ h]
      · simp only [hlen, if_false, hlen2]
        show findSessionEntry _ key' = _
        simp [findSessionEntry, insertSessionEntry, alistLookup_insert_ne _ _ h]

/-- The bypass flag for a conntrack ID, once set, persists. -/
def bypassSet (cid : Nat) (st : DState) : Prop :=
  alistLookup (cid, "bypass_packetd") st.dict = some true

theorem bypassSet_ReleaseSession {cid : Nat} {st : DState} (key w : String)
    (h : bypassSet cid st) : bypassSet cid (ReleaseSession key w st) := by
  unfold ReleaseSession
  cases hfd : findSessionEntry st key with
  | none => exact h
  | some s =>
    by_cases hlen : s.subscriptions.length = 0
    · simp only [hlen, if_true]; exact h
    · by_cases hlen2 : (alistErase w s.subscriptions).length = 0
      · simp only [hlen, if_false, hlen2, if_true]
        show bypassSet cid (AddSessionEntry _ _ _ _)
        unfold bypassSet at h ⊢
        unfold AddSessionEntry
        by_cases hk : (cid, "bypass_packetd") = (s.ConntrackID, "bypass_packetd")
        · rw [hk]; simp [alistLookup_insert_self]
        · simpa [alistLookup_insert_ne _ _ hk] using h
      · simp only [hlen, if_false, hlen2]
        exact h

theorem bypassSet_applyReleases {cid : Nat} {st : DState} (key : String)
    (rs : List (String × NfqueueResult)) (h : bypassSet cid st) :
    bypassSet cid (applyReleases key rs st) := by
  induction rs generalizing st with
  | nil => exact h
  | cons kr t ih =>
    show bypassSet cid (applyReleases key t _)
    by_cases hr : kr.2.SessionRelease
    · exact ih (by simpa [hr] using bypassSet_ReleaseSession key kr.2.Owner h)
    · simpa [applyReleases, hr] using ih (by simpa [hr] using h)

/-- Invariant used for the bypass-on-empty property: the session stored at
`key` has conntrack ID `cid`, and if its subscription map is empty the
bypass flag for `cid` is already set. -/
def SubsOrBypass (key : String) (cid : Nat) (st : DState) : Prop :=
  ∀ s, findSessionEntry st key = some s →
    s.ConntrackID = cid ∧ (s.subscriptions = [] → bypassSet cid st)

theorem SubsOrBypass_ReleaseSession (key w : String) (cid : Nat) (st : DState)
    (h : SubsOrBypass key cid st) : SubsOrBypass key cid (ReleaseSession key w st) := by
  intro s2 hs2
  rw [ReleaseSession_lookup] at hs2
  cases hfd : findSessionEntry st key with
  | none => rw [hfd] at hs2; cases hs2
  | some s =>
    rw [hfd] at hs2
    obtain ⟨hcid, hemp⟩ := h s hfd
    by_cases hlen : s.subscriptions.length = 0
    · rw [Option.map_some', if_pos hlen] at hs2
      have hse : s = s2 := by injection hs2
      refine ⟨by rw [← hse]; exact hcid, fun h2 => ?_⟩
      have hsubnil : s.subscriptions = [] := by rw [hse]; exact h2
      exact bypassSet_ReleaseSession key w (hemp hsubnil)
    · rw [Option.map_some', if_neg hlen] at hs2
      have hse : { s with subscriptions := alistErase w s.subscriptions } = s2 := by
        injection hs2
      refine ⟨by rw [← hse]; exact hcid, fun h2 => ?_⟩
      have hlen2 : (alistErase w s.subscriptions).length = 0 := by
        rw [← hse] at h2
        simpa using congrArg List.length h2
      unfold ReleaseSession
      rw [hfd]
      simp only [hlen, if_false, hlen2, if_true]
      unfold bypassSet AddSessionEntry
      rw [hcid]
      simp [alistLookup_insert_self]

theorem SubsOrBypass_applyReleases (key : String) (cid : Nat)
    (rs : List (String × NfqueueResult)) (st : DState)
    (h : SubsOrBypass key cid st) : SubsOrBypass key cid (applyReleases key rs st) := by
  induction rs generalizing st with
  | nil => exact h
  | cons kr t ih =>
    show SubsOrBypass key cid (applyReleases key t _)
    by_cases hr : kr.2.SessionRelease
    · simp only [applyReleases, List.foldl_cons, hr, if_true]
      exact ih _ (SubsOrBypass_ReleaseSession key kr.2.Owner cid st h)
    · simp only [applyReleases, List.foldl_cons, hr, if_false]
      exact ih _ h

/-- Absence of an owner in the session at `key`. -/
def noSub (key o : String) (st : DState) : Prop :=
  ∀ s, findSessionEntry st key = some s → alistLookup o s.subscriptions = none

theorem noSub_ReleaseSession (key o w : String) (st : DState)
    (h : noSub key o st) : noSub key o (ReleaseSession key w st) := by
  intro s2 hs2
  rw [ReleaseSession_lookup] at hs2
  cases hfd : findSessionEntry st key with
  | none => rw [hfd] at hs2; cases hs2
  | some s =>
    rw [hfd, Option.map_some'] at hs2
    by_cases hlen : s.subscriptions.length = 0
    · rw [if_pos hlen] at hs2
      have hse : s = s2 := by injection hs2
      rw [← hse]
      exact h s hfd
    · rw [if_neg hlen] at hs2
      have hse : { s with subscriptions := alistErase w s.subscriptions } = s2 := by
        injection hs2
      rw [← hse]
      show alistLookup o (alistErase w s.subscriptions) = none
      by_cases how : o = w
      · subst how; exact alistLookup_erase_self o s.subscriptions
      · rw [alistLookup_erase_ne s.subscriptions how]; exact h s hfd

theorem noSub_ReleaseSession_self (key o : String) (st : DState) :
    noSub key o (ReleaseSession key o st) := by
  intro s2 hs2
  rw [ReleaseSession_lookup] at hs2
  cases hfd : findSessionEntry st key with
  | none => rw [hfd] at hs2; cases hs2
  | some s =>
    rw [hfd, Option.map_some'] at hs2
    by_cases hlen : s.subscriptions.length = 0
    · rw [if_pos hlen] at hs2
      have hse : s = s2 := by injection hs2
      rw [← hse, List.length_eq_zero.mp hlen]
      rfl
    · rw [if_neg hlen] at hs2
      have hse : { s with subscriptions := alistErase o s.subscriptions } = s2 := by
        injection hs2
      rw [← hse]
      exact alistLookup_erase_self o s.subscriptions

theorem noSub_applyReleases (key o : String) (rs : List (String × NfqueueResult))
    (st : DState) (h : noSub key o st) : noSub key o (applyReleases key rs st) := by
  induction rs generalizing st with
  | nil => exact h
  | cons kr t ih =>
    show noSub key o (applyReleases key t _)
    by_cases hr : kr.2.SessionRelease
    · simp only [applyReleases, List.foldl_cons, hr, if_true]
      exact ih _ (noSub_ReleaseSession key o kr.2.Owner st h)
    · simp only [applyReleases, List.foldl_cons, hr, if_false]
      exact ih _ h

/-- `ReleaseSession` preserves the identity fields of the session at its
key (it only shrinks the subscription map). -/
theorem ReleaseSession_lookup_fields (key w : String) (st : DState)
    (s : SessionEntry) (h : findSessionEntry st key = some s) :
    ∃ s2, findSessionEntry (ReleaseSession key w st) key = some s2 ∧
      s2.SessionID = s.SessionID ∧ s2.ConntrackID = s.ConntrackID ∧
      s2.ConntrackConfirmed = s.ConntrackConfirmed := by
  refine ⟨_, by rw [ReleaseSession_lookup, h, Option.map_some'], ?_, ?_, ?_⟩ <;>
    by_cases hl : s.subscriptions.length = 0 <;> simp [hl]

theorem applyReleases_lookup_fields (key : String)
    (rs : List (String × NfqueueResult)) (st : DState) (s : SessionEntry)
    (h : findSessionEntry st key = some s) :
    ∃ s2, findSessionEntry (applyReleases key rs st) key = some s2 ∧
      s2.SessionID = s.SessionID ∧ s2.ConntrackID = s.ConntrackID ∧
      s2.ConntrackConfirmed = s.ConntrackConfirmed := by
  induction rs generalizing st s with
  | nil => exact ⟨s, h, rfl, rfl, rfl⟩
  | cons kr t ih =>
    show ∃ s2, findSessionEntry (applyReleases key t _) key = some s2 ∧ _
    by_cases hr : kr.2.SessionRelease
    · simp only [applyReleases, List.foldl_cons, hr, if_true]
      obtain ⟨s1, h1, e1, e2, e3⟩ := ReleaseSession_lookup_fields key kr.2.Owner st s h
      obtain ⟨s2, h2, f1, f2, f3⟩ := ih _ _ h1
      exact ⟨s2, h2, by rw [f1, e1], by rw [f2, e2], by rw [f3, e3]⟩
    · simp only [applyReleases, List.foldl_cons, hr, if_false]
      exact ih _ _ h

theorem applyReleases_lookup_other {key key' : String}
    (rs : List (String × NfqueueResult)) (st : DState) (h : key' ≠ key) :
    findSessionEntry (applyReleases key rs st) key' = findSessionEntry st key' := by
  induction rs generalizing st with
  | nil => rfl
  | cons kr t ih =>
    have hstep : applyReleases key (kr :: t) st
        = applyReleases key t
            (if kr.2.SessionRelease then ReleaseSession key kr.2.Owner st else st) := rfl
    rw [hstep]
    by_cases hr : kr.2.SessionRelease
    · rw [if_pos hr, ih _, ReleaseSession_lookup_other _ _ h]
    · rw [if_neg hr]
      exact ih _

theorem ReleaseSession_sessionIndex (key w : String) (st : DState) :
    (ReleaseSession key w st).sessionIndex = st.sessionIndex := by
  unfold ReleaseSession
  cases findSessionEntry st key with
  | none => rfl
  | some s =>
    by_cases hl : s.subscriptions.length = 0
    · simp [hl]
    · by_cases hl2 : (alistErase w s.subscriptions).length = 0 <;>
        simp [hl, hl2, AddSessionEntry, insertSessionEntry]

theorem applyReleases_sessionIndex (key : String)
    (rs : List (String × NfqueueResult)) (st : DState) :
    (applyReleases key rs st).sessionIndex = st.sessionIndex := by
  induction rs generalizing st with
  | nil => rfl
  | cons kr t ih =>
    have hstep : applyReleases key (kr :: t) st
        = applyReleases key t
            (if kr.2.SessionRelease then ReleaseSession key kr.2.Owner st else st) := rfl
    rw [hstep]
    by_cases hr : kr.2.SessionRelease
    · rw [if_pos hr, ih _, ReleaseSession_sessionIndex]
    · rw [if_neg hr]
      exact ih _

theorem ReleaseSession_nfqueueList (key w : String) (st : DState) :
    (ReleaseSession key w st).nfqueueList = st.nfqueueList := by
  unfold ReleaseSession
  cases findSessionEntry st key with
  | none => rfl
  | some s =>
    by_cases hl : s.subscriptions.length = 0
    · simp [hl]
    · by_cases hl2 : (alistErase w s.subscriptions).length = 0 <;>
        simp [hl, hl2, AddSessionEntry, insertSessionEntry]

theorem applyReleases_nfqueueList (key : String)
    (rs : List (String × NfqueueResult)) (st : DState) :
    (applyReleases key rs st).nfqueueList = st.nfqueueList := by
  induction rs generalizing st with
  | nil => rfl
  | cons kr t ih =>
    have hstep : applyReleases key (kr :: t) st
        = applyReleases key t
            (if kr.2.SessionRelease then ReleaseSession key kr.2.Owner st else st) := rfl
    rw [hstep]
    by_cases hr : kr.2.SessionRelease
    · rw [if_pos hr, ih _, ReleaseSession_nfqueueList]
    · rw [if_neg hr]
      exact ih _

/-- The allocated session record of `createSessionEntry`. -/
theorem createSessionEntry_fst (tup : Tuple) (ctid : Nat) (packetLength now : Nat)
    (st : DState) :
    (createSessionEntry tup ctid packetLength now st).1
      = ⟨st.sessionIndex + 1, ctid, false, tup, now, now, 1, packetLength, 1,
         st.nfqueueList⟩ := rfl

/-- The state after `createSessionEntry`. -/
theorem createSessionEntry_snd (tup : Tuple) (ctid : Nat) (packetLength now : Nat)
    (st : DState) :
    (createSessionEntry tup ctid packetLength now st).2
      = insertSessionEntry (Tuple.fwdString tup)
          (createSessionEntry tup ctid packetLength now st).1
          { st with sessionIndex := st.sessionIndex + 1 } := rfl

theorem alistLookup_eq_none_iff {α β : Type} [DecidableEq α] (k : α)
    (l : List (α × β)) : alistLookup k l = none ↔ k ∉ l.map Prod.fst := by
  induction l with
  | nil => simp [alistLookup]
  | cons kv t ih =>
    by_cases hk : kv.1 = k
    · simp [alistLookup, hk]
    · have hstep : alistLookup k (kv :: t) = alistLookup k t := by
        simp [alistLookup, hk]
      rw [hstep, ih]
      simp only [List.map_cons, List.mem_cons, not_or]
      constructor
      · intro hn
        exact ⟨fun e => hk e.symm, hn⟩
      · intro hn
        exact hn.2

/-! ### Session-table lookup lemmas -/

theorem findSessionEntry_insert_self (k : String) (s : SessionEntry) (st : DState) :
    findSessionEntry (insertSessionEntry k s st) k = some s :=
  alistLookup_insert_self k s st.sessionTable

theorem findSessionEntry_insert_ne {k k' : String} (s : SessionEntry) (st : DState)
    (h : k' ≠ k) :
    findSessionEntry (insertSessionEntry k s st) k' = findSessionEntry st k' :=
  alistLookup_insert_ne s st.sessionTable h

theorem findSessionEntry_remove_ne {k k' : String} (st : DState) (h : k' ≠ k) :
    findSessionEntry (removeSessionEntry k st) k' = findSessionEntry st k' :=
  alistLookup_erase_ne st.sessionTable h

theorem findSessionEntry_idx (k : String) (st : DState) (n : Nat) :
    findSessionEntry { st with sessionIndex := n } k = findSessionEntry st k := rfl

theorem lookupSessionEntry_fwd {st : DState} {tup : Tuple} {s : SessionEntry}
    (h : findSessionEntry st (Tuple.fwdString tup) = some s) :
    lookupSessionEntry st tup = some (Tuple.fwdString tup, s, true) := by
  unfold lookupSessionEntry
  rw [h]

theorem lookupSessionEntry_rev {st : DState} {tup : Tuple} {s : SessionEntry}
    (hf : findSessionEntry st (Tuple.fwdString tup) = none)
    (hr : findSessionEntry st (Tuple.revString tup) = some s) :
    lookupSessionEntry st tup = some (Tuple.revString tup, s, false) := by
  unfold lookupSessionEntry
  rw [hf, hr]

theorem accountSession_SessionID (now packetLength : Nat) (s : SessionEntry) :
    (accountSession now packetLength s).SessionID = s.SessionID := rfl

theorem accountSession_ConntrackConfirmed (now packetLength : Nat) (s : SessionEntry) :
    (accountSession now packetLength s).ConntrackConfirmed = s.ConntrackConfirmed := rfl

/-! ### Branch equations of `nfqueueCallback` -/

theorem nfqueueCallback_noip {packet : Packet} (ctid packetLength pmark now : Nat)
    (st : DState) (hpt : parsedTuple packet = none) :
    nfqueueCallback ctid packet packetLength pmark now st = .ok NfAccept pmark st [] := by
  unfold nfqueueCallback
  rw [hpt]

theorem nfqueueCallback_miss_mid {packet : Packet} {tup : Tuple}
    (ctid packetLength pmark now : Nat) (st : DState)
    (hpt : parsedTuple packet = some tup)
    (hlk : lookupSessionEntry st tup = none)
    (hns : pmark &&& 0x10000000 = 0) :
    nfqueueCallback ctid packet packetLength pmark now st
      = .ok NfAccept pmark (AddSessionEntry ctid "bypass_packetd" true st) [] := by
  unfold nfqueueCallback
  rw [hpt]
  simp only [hlk, hns]
  rfl

theorem nfqueueCallback_miss_new {packet : Packet} {tup : Tuple}
    (ctid packetLength pmark now : Nat) (st : DState)
    (hpt : parsedTuple packet = some tup)
    (hlk : lookupSessionEntry st tup = none)
    (hns : pmark &&& 0x10000000 ≠ 0) :
    nfqueueCallback ctid packet packetLength pmark now st
      = finishDispatch ctid (Tuple.fwdString tup)
          (createSessionEntry tup ctid packetLength now st).1 true tup
          packetLength pmark true now (createSessionEntry tup ctid packetLength now st).2 := by
  unfold nfqueueCallback
  rw [hpt]
  have hb : (pmark &&& 0x10000000 != 0) = true := bne_iff_ne.mpr hns
  simp only [hlk, hb]
  rfl

theorem nfqueueCallback_hit_old {packet : Packet} {tup : Tuple} {key : String}
    {s : SessionEntry} {c2s : Bool}
    (ctid packetLength pmark now : Nat) (st : DState)
    (hpt : parsedTuple packet = some tup)
    (hlk : lookupSessionEntry st tup = some (key, s, c2s))
    (hns : pmark &&& 0x10000000 = 0) :
    nfqueueCallback ctid packet packetLength pmark now st
      = finishDispatch ctid key s c2s tup packetLength pmark false now st := by
  unfold nfqueueCallback
  rw [hpt]
  simp only [hlk, hns]
  rfl

theorem nfqueueCallback_hit_new_confirmed {packet : Packet} {tup : Tuple}
    {key : String} {s : SessionEntry} {c2s : Bool}
    (ctid packetLength pmark now : Nat) (st : DState)
    (hpt : parsedTuple packet = some tup)
    (hlk : lookupSessionEntry st tup = some (key, s, c2s))
    (hns : pmark &&& 0x10000000 ≠ 0)
    (hcf : s.ConntrackConfirmed = true) :
    nfqueueCallback ctid packet packetLength pmark now st
      = finishDispatch ctid key s c2s tup packetLength pmark true now st := by
  unfold nfqueueCallback
  rw [hpt]
  have hb : (pmark &&& 0x10000000 != 0) = true := bne_iff_ne.mpr hns
  simp only [hlk, hb, hcf]
  rfl

theorem nfqueueCallback_hit_new_unconfirmed {packet : Packet} {tup : Tuple}
    {key : String} {s : SessionEntry} {c2s : Bool}
    (ctid packetLength pmark now : Nat) (st : DState)
    (hpt : parsedTuple packet = some tup)
    (hlk : lookupSessionEntry st tup = some (key, s, c2s))
    (hns : pmark &&& 0x10000000 ≠ 0)
    (hcf : s.ConntrackConfirmed = false) :
    nfqueueCallback ctid packet packetLength pmark now st
      = finishDispatch ctid (Tuple.fwdString tup)
          (createSessionEntry tup ctid packetLength now
            (removeSessionEntry (Tuple.fwdString tup) st)).1 c2s tup
          packetLength pmark true now
          (createSessionEntry tup ctid packetLength now
            (removeSessionEntry (Tuple.fwdString tup) st)).2 := by
  unfold nfqueueCallback
  rw [hpt]
  have hb : (pmark &&& 0x10000000 != 0) = true := bne_iff_ne.mpr hns
  simp only [hlk, hb, hcf]
  rfl

/-- Packaged description of a normal return of `finishDispatch`. -/
theorem finishDispatch_ok_spec (ctid : Nat) (key : String) (s : SessionEntry)
    (c2s : Bool) (tup : Tuple) (packetLength pmark : Nat) (ns : Bool) (now : Nat)
    (st : DState) (v : Int) (m : Nat) (st' : DState)
    (inv : List (String × NfqueueResult))
    (h : finishDispatch ctid key s c2s tup packetLength pmark ns now st
          = .ok v m st' inv) :
    v = NfAccept ∧ m = markFold inv pmark ∧
    st' = applyReleases key inv
            (insertSessionEntry key (accountSession now packetLength s) st) ∧
    ∃ hold : List (String × SubscriptionHolder),
      inv = hold.map (fun kv => (kv.1, resultOf ⟨tup, packetLength, ctid, ns, c2s⟩ kv)) ∧
      hold.Perm s.subscriptions := by
  unfold finishDispatch at h
  obtain ⟨hv, hm, hst, hold, hmap, hperm⟩ := callSubscribers_ok_spec _ _ _ _ _ _ _ _ _ h
  refine ⟨hv, hm, hst, hold, hmap, ?_⟩
  simpa [MirrorNfqueueSubscriptions, accountSession] using hperm

/-- Every normal return of `nfqueueCallback` carries verdict `NfAccept` and
a mark that ORs the collected result marks onto the input mark. -/
theorem nfqueueCallback_ok_spec (ctid : Nat) (packet : Packet)
    (packetLength pmark now : Nat) (st : DState) (v : Int) (m : Nat) (st' : DState)
    (inv : List (String × NfqueueResult))
    (h : nfqueueCallback ctid packet packetLength pmark now st = .ok v m st' inv) :
    v = NfAccept ∧ m = markFold inv pmark := by
  cases hpt : parsedTuple packet with
  | none =>
    rw [nfqueueCallback_noip ctid packetLength pmark now st hpt] at h
    cases h
    exact ⟨rfl, by simp [markFold]⟩
  | some tup =>
    cases hlk : lookupSessionEntry st tup with
    | none =>
      by_cases hns : pmark &&& 0x10000000 = 0
      · rw [nfqueueCallback_miss_mid ctid packetLength pmark now st hpt hlk hns] at h
        cases h
        exact ⟨rfl, by simp [markFold]⟩
      · rw [nfqueueCallback_miss_new ctid packetLength pmark now st hpt hlk hns] at h
        obtain ⟨hv, hm, _, _⟩ := finishDispatch_ok_spec _ _ _ _ _ _ _ _ _ _ _ _ _ _ h
        exact ⟨hv, hm⟩
    | some ksd =>
      obtain ⟨key, s, c2s⟩ := ksd
      by_cases hns : pmark &&& 0x10000000 = 0
      · rw [nfqueueCallback_hit_old ctid packetLength pmark now st hpt hlk hns] at h
        obtain ⟨hv, hm, _, _⟩ := finishDispatch_ok_spec _ _ _ _ _ _ _ _ _ _ _ _ _ _ h
        exact ⟨hv, hm⟩
      · cases hcf : s.ConntrackConfirmed with
        | true =>
          rw [nfqueueCallback_hit_new_confirmed ctid packetLength pmark now st
            hpt hlk hns hcf] at h
          obtain ⟨hv, hm, _, _⟩ := finishDispatch_ok_spec _ _ _ _ _ _ _ _ _ _ _ _ _ _ h
          exact ⟨hv, hm⟩
        | false =>
          rw [nfqueueCallback_hit_new_unconfirmed ctid packetLength pmark now st
            hpt hlk hns hcf] at h
          obtain ⟨hv, hm, _, _⟩ := finishDispatch_ok_spec _ _ _ _ _ _ _ _ _ _ _ _ _ _ h
          exact ⟨hv, hm⟩

/-! ### Benign-handler infrastructure for the replay property -/

/-- The found session is stored at the returned key. -/
theorem lookupSessionEntry_find {st : DState} {tup : Tuple} {key : String}
    {s : SessionEntry} {c2s : Bool}
    (h : lookupSessionEntry st tup = some (key, s, c2s)) :
    findSessionEntry st key = some s := by
  unfold lookupSessionEntry at h
  cases hf : findSessionEntry st (Tuple.fwdString tup) with
  | some s0 =>
    rw [hf] at h
    simp only [Option.some.injEq, Prod.mk.injEq] at h
    obtain ⟨hk, hs, _⟩ := h
    subst hk
    subst hs
    exact hf
  | none =>
    rw [hf] at h
    cases hr : findSessionEntry st (Tuple.revString tup) with
    | some s0 =>
      rw [hr] at h
      simp only [Option.some.injEq, Prod.mk.injEq] at h
      obtain ⟨hk, hs, _⟩ := h
      subst hk
      subst hs
      exact hr
    | none => rw [hr] at h; cases h

/-- A hit comes from exactly one of the two probes, fixing key and flag. -/
theorem lookupSessionEntry_cases {st : DState} {tup : Tuple} {key : String}
    {s : SessionEntry} {c2s : Bool}
    (h : lookupSessionEntry st tup = some (key, s, c2s)) :
    (key = Tuple.fwdString tup ∧ c2s = true ∧
      findSessionEntry st (Tuple.fwdString tup) = some s) ∨
    (key = Tuple.revString tup ∧ c2s = false ∧
      findSessionEntry st (Tuple.fwdString tup) = none ∧
      findSessionEntry st (Tuple.revString tup) = some s) := by
  unfold lookupSessionEntry at h
  cases hf : findSessionEntry st (Tuple.fwdString tup) with
  | some s0 =>
    rw [hf] at h
    simp only [Option.some.injEq, Prod.mk.injEq] at h
    obtain ⟨hk, hs, hc⟩ := h
    subst hk
    subst hs
    exact Or.inl ⟨rfl, hc.symm, rfl⟩
  | none =>
    rw [hf] at h
    cases hr : findSessionEntry st (Tuple.revString tup) with
    | some s0 =>
      rw [hr] at h
      simp only [Option.some.injEq, Prod.mk.injEq] at h
      obtain ⟨hk, hs, hc⟩ := h
      subst hk
      subst hs
      exact Or.inr ⟨rfl, hc.symm, rfl, rfl⟩
    | none => rw [hr] at h; cases h

/-- Handlers of a subscription list that always complete within the guard
and never request a session release. -/
def NoRelease (l : List (String × SubscriptionHolder)) : Prop :=
  ∀ kv ∈ l, ∀ i : HandlerInput,
    ∃ r, kv.2.NfqueueFunc i = some r ∧ r.SessionRelease = false

/-- Handlers of a subscription list whose result does not depend on the
direction flag (they are functions of tuple, length, ctid and newness). -/
def DirBlind (l : List (String × SubscriptionHolder)) : Prop :=
  ∀ kv ∈ l, ∀ i1 i2 : HandlerInput,
    i1.MsgTuple = i2.MsgTuple → i1.Length = i2.Length →
    i1.CtidArg = i2.CtidArg → i1.NewSessionArg = i2.NewSessionArg →
    kv.2.NfqueueFunc i1 = kv.2.NfqueueFunc i2

/-- The registry and every stored session carry only benign handlers. -/
def BenignState (st : DState) : Prop :=
  (NoRelease st.nfqueueList ∧ DirBlind st.nfqueueList) ∧
  ∀ k s, findSessionEntry st k = some s →
    NoRelease s.subscriptions ∧ DirBlind s.subscriptions

theorem resultOf_norel {l : List (String × SubscriptionHolder)}
    (hn : NoRelease l) {kv : String × SubscriptionHolder} (hm : kv ∈ l)
    (i : HandlerInput) : (resultOf i kv).SessionRelease = false := by
  obtain ⟨r, hr, hrel⟩ := hn kv hm i
  rw [resultOf, hr]
  exact hrel

theorem resultOf_dirblind {l : List (String × SubscriptionHolder)}
    (hd : DirBlind l) {kv : String × SubscriptionHolder} (hm : kv ∈ l)
    {i1 i2 : HandlerInput} (h1 : i1.MsgTuple = i2.MsgTuple)
    (h2 : i1.Length = i2.Length) (h3 : i1.CtidArg = i2.CtidArg)
    (h4 : i1.NewSessionArg = i2.NewSessionArg) :
    resultOf i1 kv = resultOf i2 kv := by
  rw [resultOf, resultOf, hd kv hm i1 i2 h1 h2 h3 h4]

theorem applyReleases_norel (key : String) (rs : List (String × NfqueueResult))
    (st : DState) (h : ∀ x ∈ rs, x.2.SessionRelease = false) :
    applyReleases key rs st = st := by
  induction rs with
  | nil => rfl
  | cons kr t ih =>
    have hstep : applyReleases key (kr :: t) st
        = applyReleases key t
            (if kr.2.SessionRelease then ReleaseSession key kr.2.Owner st else st) := rfl
    rw [hstep, h kr (List.mem_cons_self kr t), if_neg (by simp)]
    exact ih (fun x hx => h x (List.mem_cons_of_mem kr hx))

theorem markFold_perm {rs1 rs2 : List (String × NfqueueResult)} (h : rs1.Perm rs2)
    (a : Nat) : markFold rs1 a = markFold rs2 a := by
  haveI : RightCommutative
      (fun (a : Nat) (kr : String × NfqueueResult) => a ||| kr.2.PacketMark) :=
    ⟨fun b k1 k2 => by
      simp [Nat.lor_assoc, Nat.lor_comm k1.2.PacketMark k2.2.PacketMark]⟩
  exact h.foldl_eq a

/-- Two fan-outs over the same subscription list with pointwise-agreeing
handler evaluations produce the same merged mark. -/
theorem fan_mark_eq {L hold1 hold2 : List (String × SubscriptionHolder)}
    {i1 i2 : HandlerInput} (a : Nat)
    (hagree : ∀ kv ∈ L, kv.2.NfqueueFunc i1 = kv.2.NfqueueFunc i2)
    (hp1 : hold1.Perm L) (hp2 : hold2.Perm L) :
    markFold (hold1.map (fun kv => (kv.1, resultOf i1 kv))) a
      = markFold (hold2.map (fun kv => (kv.1, resultOf i2 kv))) a := by
  have hcongr : hold1.map (fun kv => (kv.1, resultOf i1 kv))
      = hold1.map (fun kv => (kv.1, resultOf i2 kv)) := by
    refine List.map_congr_left ?_
    intro kv hkv
    have hmem : kv ∈ L := hp1.mem_iff.mp hkv
    rw [resultOf, resultOf, hagree kv hmem]
  rw [hcongr]
  exact markFold_perm
    ((hp1.map (fun kv => (kv.1, resultOf i2 kv))).trans
      (hp2.map (fun kv => (kv.1, resultOf i2 kv))).symm) a

/-- Under no-release handlers a normal `finishDispatch` return leaves the
state at exactly the accounting update, and its mark is determined by the
subscription snapshot. -/
theorem finishDispatch_norel_spec (ctid : Nat) (key : String) (s : SessionEntry)
    (c2s : Bool) (tup : Tuple) (packetLength pmark : Nat) (ns : Bool) (now : Nat)
    (st : DState) (v : Int) (m : Nat) (st' : DState)
    (inv : List (String × NfqueueResult))
    (hnr : NoRelease s.subscriptions)
    (h : finishDispatch ctid key s c2s tup packetLength pmark ns now st
          = .ok v m st' inv) :
    st' = insertSessionEntry key (accountSession now packetLength s) st ∧
    ∃ hold : List (String × SubscriptionHolder),
      hold.Perm s.subscriptions ∧
      m = markFold
        (hold.map (fun kv =>
          (kv.1, resultOf ⟨tup, packetLength, ctid, ns, c2s⟩ kv))) pmark := by
  obtain ⟨_, hm, hst, hold, hmap, hperm⟩ := finishDispatch_ok_spec _ _ _ _ _ _ _ _ _ _ _ _ _ _ h
  have hnorel : ∀ x ∈ inv, x.2.SessionRelease = false := by
    intro x hx
    rw [hmap] at hx
    obtain ⟨kv, hkv, hxeq⟩ := List.mem_map.mp hx
    rw [← hxeq]
    exact resultOf_norel hnr (hperm.mem_iff.mp hkv) _
  refine ⟨by rw [hst, applyReleases_norel _ _ _ hnorel], hold, hperm, ?_⟩
  rw [hm, hmap]

/-! ### Concrete objects used by witnesses and counterexamples -/

/-- Concrete TCP tuple `10.0.0.1:50000 → 93.184.216.34:443`. -/
def cTup : Tuple := ⟨6, "10.0.0.1", 50000, "93.184.216.34", 443⟩

/-- Concrete TCP SYN-like packet parsing to `cTup`. -/
def cPkt : Packet :=
  ⟨some ⟨6, "10.0.0.1", "93.184.216.34"⟩, none, some (50000, 443), none, none⟩

/-- Empty process state with an idle counter. -/
def cSt0 : DState := ⟨[], [], 1000, []⟩

/-! ### Claim C1 -/

/-- C1: for every packet reaching the fan-out (and in fact on every normal
return of `nfqueueCallback`), the verdict is `NfAccept` (never `NfDrop`)
and the outgoing mark equals the input mark bitwise-OR'd with the
`PacketMark` fields of all handler results collected for that packet. -/
theorem nfqueueCallback_accept_or_mark (ctid : Nat) (packet : Packet)
    (packetLength pmark now : Nat) (st : DState) (v : Int) (m : Nat) (st' : DState)
    (inv : List (String × NfqueueResult))
    (h : nfqueueCallback ctid packet packetLength pmark now st = .ok v m st' inv) :
    v = NfAccept ∧ v ≠ NfDrop ∧ m = pmark ||| markFold inv 0 := by
  obtain ⟨hv, hm⟩ := nfqueueCallback_ok_spec _ _ _ _ _ _ _ _ _ _ h
  refine ⟨hv, by rw [hv]; decide, ?_⟩
  rw [hm, markFold_lor]

theorem nfqueueCallback_accept_or_mark_witness :
    ∃ v m st' inv, nfqueueCallback 1 cPkt 60 0 0 cSt0 = .ok v m st' inv ∧
      (v = NfAccept ∧ v ≠ NfDrop ∧ m = 0 ||| markFold inv 0) :=
  ⟨_, _, _, _, rfl, nfqueueCallback_accept_or_mark 1 cPkt 60 0 0 cSt0 _ _ _ _ rfl⟩

/-! ### Claim C2 -/

/-- C2 (code bug): for the first packet of a new flow (`length = 60`,
new-session bit set, empty table), `createSessionEntry` initializes the
counters to `packet=1, byte=60, event=1`, but `nfqueueCallback` then runs
its unconditional accounting update on the same freshly created session, so
after the callback returns the stored session has `packetCount = 2`,
`byteCount = 120`, `eventCount = 2` — not `1`/`60`/`1` as the claim states. -/
theorem nfqueueCallback_first_packet_double_count :
    ∃ v m st', nfqueueCallback 100 cPkt 60 0x10000000 5 cSt0 = .ok v m st' [] ∧
      (findSessionEntry st' (Tuple.fwdString cTup)).map
        (fun s => (s.PacketCount, s.ByteCount, s.EventCount)) = some (2, 120, 2) :=
  ⟨_, _, _, rfl, rfl⟩

/-! ### Claim C3 -/

/-- Subscriber at the registration-legal priority 100. -/
def c3holder : SubscriptionHolder := ⟨"p100", 100, fun _ => some ⟨"p100", 4, false⟩⟩

/-- Session subscribed only by the priority-100 subscriber. -/
def c3sess : SessionEntry := ⟨77, 9, false, cTup, 0, 0, 1, 60, 1, [("p100", c3holder)]⟩

/-- Table state holding `c3sess`. -/
def c3st : DState := ⟨[(Tuple.fwdString cTup, c3sess)], [], 1000, []⟩

/-- Handler input for the `c3sess` fan-out. -/
def c3inp : HandlerInput := ⟨cTup, 60, 9, false, true⟩

/-- The priority loop on a single subscription pinned at priority 100:
waves `priority, …, 99` are empty, the wave at 100 invokes the handler, and
then the overflow check panics without re-testing the exit condition. -/
theorem callLoop_single_pri100 (inp : HandlerInput) (key o : String)
    (hh : SubscriptionHolder) (hpri : hh.Priority = 100) (pm : Nat) :
    ∀ (gas priority : Nat) (st : DState) (acc : List (String × NfqueueResult)),
    priority + gas = 100 →
    callLoop inp key [(o, hh)] gas 0 priority pm st acc
      = .panicked (acc ++ [(o, resultOf inp (o, hh))]) := by
  intro gas
  induction gas with
  | zero =>
    intro priority st acc hsum
    have hp100 : priority = 100 := by omega
    subst hp100
    have hlayer : layerOf [(o, hh)] 100 = [(o, hh)] := by
      simp [layerOf, hpri]
    have hlr : layerResults inp [(o, hh)] 100 = [(o, resultOf inp (o, hh))] := by
      simp [layerResults, hlayer]
    rw [callLoop]
    rw [if_neg (by simp)]
    simp [hlr]
  | succ g ih =>
    intro priority st acc hsum
    have hlayer : layerOf [(o, hh)] priority = [] := by
      have hne : (hh.Priority == (priority : Int)) = false := by
        rw [hpri]
        simp only [beq_eq_false_iff_ne, ne_eq]
        omega
      simp [layerOf, hne]
    have hlr : layerResults inp [(o, hh)] priority = [] := by
      simp [layerResults, hlayer]
    rw [callLoop]
    rw [if_neg (by simp)]
    have hmr : mergeResults key [] pm st = (pm, st) := rfl
    simp only [hlr, hlayer, List.length_nil, Nat.add_zero, List.append_nil, hmr]
    exact ih (priority + 1) st acc (by omega)

/-- C3 (code bug): with a single subscription at priority 100 — inside the
registration constraint `[0,100]` — `callSubscribers` invokes the handler
exactly once and exhausts the subscription list, yet still reaches the
priority-overflow panic, because the `priority > 100` check runs after the
wave at priority 100 without re-testing the loop exit condition. -/
theorem callSubscribers_priority100_panics :
    callSubscribers c3inp (Tuple.fwdString cTup) c3sess 0 c3st
      = .panicked [("p100", ⟨"p100", 4, false⟩)] := by
  show callLoop c3inp (Tuple.fwdString cTup) (MirrorNfqueueSubscriptions c3sess)
    100 0 0 0 c3st [] = _
  have h := callLoop_single_pri100 c3inp (Tuple.fwdString cTup) "p100" c3holder
    rfl 0 100 0 c3st [] rfl
  simpa [MirrorNfqueueSubscriptions, c3sess, resultOf, c3holder] using h

/-! ### Claim C6 -/

/-- C6: an IP packet missing both table probes with the new-session bit
clear sets the bypass dict entry for its ctid, returns `(NfAccept, pmark)`,
invokes nothing, creates no session and leaves the session table and the
session counter unchanged. -/
theorem nfqueueCallback_miss_mid_bypass (ctid : Nat) (packet : Packet)
    (packetLength pmark now : Nat) (st : DState) (tup : Tuple)
    (hpt : parsedTuple packet = some tup)
    (hfwd : findSessionEntry st (Tuple.fwdString tup) = none)
    (hrev : findSessionEntry st (Tuple.revString tup) = none)
    (hns : pmark &&& 0x10000000 = 0) :
    nfqueueCallback ctid packet packetLength pmark now st
      = .ok NfAccept pmark (AddSessionEntry ctid "bypass_packetd" true st) [] ∧
    (AddSessionEntry ctid "bypass_packetd" true st).sessionTable = st.sessionTable ∧
    (AddSessionEntry ctid "bypass_packetd" true st).sessionIndex = st.sessionIndex ∧
    alistLookup (ctid, "bypass_packetd")
      (AddSessionEntry ctid "bypass_packetd" true st).dict = some true := by
  have hlk : lookupSessionEntry st tup = none := by
    unfold lookupSessionEntry
    rw [hfwd, hrev]
  exact ⟨nfqueueCallback_miss_mid ctid packetLength pmark now st hpt hlk hns,
    rfl, rfl, alistLookup_insert_self _ _ _⟩

theorem nfqueueCallback_miss_mid_bypass_witness :
    nfqueueCallback 7 cPkt 60 0 3 cSt0
      = .ok NfAccept 0 (AddSessionEntry 7 "bypass_packetd" true cSt0) [] ∧
    (AddSessionEntry 7 "bypass_packetd" true cSt0).sessionTable = cSt0.sessionTable ∧
    (AddSessionEntry 7 "bypass_packetd" true cSt0).sessionIndex = cSt0.sessionIndex ∧
    alistLookup (7, "bypass_packetd")
      (AddSessionEntry 7 "bypass_packetd" true cSt0).dict = some true :=
  nfqueueCallback_miss_mid_bypass 7 cPkt 60 0 3 cSt0 cTup rfl rfl rfl rfl

/-! ### Claim C8 -/

/-- C8: registering a duplicate owner is fatal (the dispatch panics), while
registering a fresh owner succeeds and adds exactly that one entry, leaving
every other owner's registration unchanged. -/
theorem InsertNfqueueSubscription_duplicate_fatal (owner : String) (priority : Int)
    (fn : HandlerFn) (l : List (String × SubscriptionHolder)) :
    ((alistLookup owner l).isSome = true →
      InsertNfqueueSubscription owner priority fn l
        = .error "DUPLICATE NFQUEUE SUBSCRIPTION DETECTED!") ∧
    (alistLookup owner l = none →
      InsertNfqueueSubscription owner priority fn l
        = .ok (alistInsert owner ⟨owner, priority, fn⟩ l) ∧
      alistLookup owner (alistInsert owner ⟨owner, priority, fn⟩ l)
        = some ⟨owner, priority, fn⟩ ∧
      (∀ o, o ≠ owner →
        alistLookup o (alistInsert owner ⟨owner, priority, fn⟩ l) = alistLookup o l) ∧
      (alistInsert owner ⟨owner, priority, fn⟩ l).length = l.length + 1) := by
  constructor
  · intro hdup
    unfold InsertNfqueueSubscription
    simp [hdup]
  · intro hnone
    have hex : (alistLookup owner l).isSome = false := by rw [hnone]; rfl
    refine ⟨by unfold InsertNfqueueSubscription; simp [hex],
      alistLookup_insert_self _ _ _,
      fun o ho => alistLookup_insert_ne _ _ ho, ?_⟩
    unfold alistInsert
    rw [alistErase_of_lookup_none hnone]
    simp

/-- Constant handler used in registration witnesses. -/
def c8fn : HandlerFn := fun _ => some ⟨"geoip", 0, false⟩

theorem InsertNfqueueSubscription_duplicate_fatal_witness :
    (InsertNfqueueSubscription "geoip" 1 c8fn [("geoip", ⟨"geoip", 1, c8fn⟩)]
      = .error "DUPLICATE NFQUEUE SUBSCRIPTION DETECTED!") ∧
    (InsertNfqueueSubscription "geoip" 1 c8fn []
      = .ok (alistInsert "geoip" ⟨"geoip", 1, c8fn⟩ []) ∧
     (alistInsert "geoip" (⟨"geoip", 1, c8fn⟩ : SubscriptionHolder) []).length
      = ([] : List (String × SubscriptionHolder)).length + 1) :=
  ⟨(InsertNfqueueSubscription_duplicate_fatal "geoip" 1 c8fn
      [("geoip", ⟨"geoip", 1, c8fn⟩)]).1 rfl,
   ((InsertNfqueueSubscription_duplicate_fatal "geoip" 1 c8fn []).2 rfl).1,
   ((InsertNfqueueSubscription_duplicate_fatal "geoip" 1 c8fn []).2 rfl).2.2.2⟩

/-! ### Claim C10 -/

/-- C10: the handlers invoked for one packet are exactly (one invocation
each) the session's subscription snapshot taken at the start of
`callSubscribers` — regardless of any releases performed during the
fan-out, which therefore only affect subsequent packets. -/
theorem callSubscribers_snapshot_exact (inp : HandlerInput) (key : String)
    (session : SessionEntry) (pmark : Nat) (st : DState) (v : Int) (m : Nat)
    (st' : DState) (inv : List (String × NfqueueResult))
    (h : callSubscribers inp key session pmark st = .ok v m st' inv) :
    (inv.map Prod.fst).Perm ((MirrorNfqueueSubscriptions session).map Prod.fst) := by
  obtain ⟨_, _, _, hold, hmap, hperm⟩ := callSubscribers_ok_spec _ _ _ _ _ _ _ _ _ h
  have hmapeq : inv.map Prod.fst = hold.map Prod.fst := by
    rw [hmap, List.map_map]
    rfl
  rw [hmapeq]
  exact hperm.map Prod.fst

/-- Priority-0 subscriber that releases the distinct owner `B` (not yet
reached) during the fan-out. -/
def c10hA : SubscriptionHolder := ⟨"A", 0, fun _ => some ⟨"B", 1, true⟩⟩

/-- Priority-1 subscriber `B`. -/
def c10hB : SubscriptionHolder := ⟨"B", 1, fun _ => some ⟨"B", 2, false⟩⟩

/-- Session subscribed by `A` and `B`. -/
def c10sess : SessionEntry :=
  ⟨900, 80, true, cTup, 0, 0, 1, 60, 1, [("A", c10hA), ("B", c10hB)]⟩

/-- Table state holding `c10sess`. -/
def c10st : DState := ⟨[(Tuple.fwdString cTup, c10sess)], [], 1000, []⟩

/-! ### Claim C4 -/

/-- Session born with an empty subscription snapshot (empty registry). -/
def c4sess : SessionEntry := ⟨700, 60, true, cTup, 0, 0, 1, 60, 1, []⟩

/-- Table state holding `c4sess`. -/
def c4st : DState := ⟨[(Tuple.fwdString cTup, c4sess)], [], 1000, []⟩

/-- C4 counterexample: a session whose subscription map is empty from birth
(empty registry) completes a dispatch with an empty map, yet no
`bypass_packetd` dict entry has been written — the claim as stated fails;
the bypass write happens only inside a release that empties the map. -/
theorem nfqueueCallback_empty_subs_no_bypass :
    ∃ v m st', nfqueueCallback 60 cPkt 60 0 5 c4st = .ok v m st' [] ∧
      (findSessionEntry st' (Tuple.fwdString cTup)).map
        (fun s => s.subscriptions.length) = some 0 ∧
      alistLookup (60, "bypass_packetd") st'.dict = none := by
  have hfwd : findSessionEntry c4st (Tuple.fwdString cTup) = some c4sess := by
    show alistLookup (Tuple.fwdString cTup) [(Tuple.fwdString cTup, c4sess)]
      = some c4sess
    simp [alistLookup]
  have hlk : lookupSessionEntry c4st cTup
      = some (Tuple.fwdString cTup, c4sess, true) := by
    unfold lookupSessionEntry
    rw [hfwd]
  have hpt : parsedTuple cPkt = some cTup := rfl
  have hns : (0:Nat) &&& 0x10000000 = 0 := rfl
  have heq := nfqueueCallback_hit_old 60 60 0 5 c4st hpt hlk hns
  have hfd : finishDispatch 60 (Tuple.fwdString cTup) c4sess true cTup 60 0 false 5 c4st
      = .ok NfAccept 0
          (insertSessionEntry (Tuple.fwdString cTup) (accountSession 5 60 c4sess) c4st)
          [] := by
    unfold finishDispatch callSubscribers
    rw [callLoop]
    simp [MirrorNfqueueSubscriptions, accountSession, c4sess]
  rw [heq, hfd]
  refine ⟨_, _, _, rfl, ?_, ?_⟩
  · rw [findSessionEntry_insert_self]
    simp [accountSession, c4sess]
  · rfl

/-- C4 (amended): if the session's subscription map is nonempty when the
fan-out starts and empty at some stored state after it returns, the bypass
dict entry for the session's conntrack ID has been written; and whenever a
release empties a nonempty map, the flag is written during that release. -/
theorem callSubscribers_empty_implies_bypass (inp : HandlerInput) (key : String)
    (session : SessionEntry) (pmark : Nat) (st : DState) (v : Int) (m : Nat)
    (st' : DState) (inv : List (String × NfqueueResult))
    (hsess : findSessionEntry st key = some session)
    (hne : session.subscriptions ≠ [])
    (h : callSubscribers inp key session pmark st = .ok v m st' inv) :
    (∀ s', findSessionEntry st' key = some s' → s'.subscriptions = [] →
      bypassSet s'.ConntrackID st') ∧
    (∀ st0 s0 o, findSessionEntry st0 key = some s0 → s0.subscriptions ≠ [] →
      alistErase o s0.subscriptions = [] →
      bypassSet s0.ConntrackID (ReleaseSession key o st0)) := by
  constructor
  · obtain ⟨_, _, hst, _⟩ := callSubscribers_ok_spec _ _ _ _ _ _ _ _ _ h
    have hinv0 : SubsOrBypass key session.ConntrackID st := by
      intro s0 h0
      rw [hsess] at h0
      have hse : session = s0 := by injection h0
      rw [← hse]
      exact ⟨rfl, fun hnil => absurd hnil hne⟩
    have hinv1 := SubsOrBypass_applyReleases key session.ConntrackID inv st hinv0
    rw [← hst] at hinv1
    intro s' hs' hempty
    obtain ⟨hcid, himp⟩ := hinv1 s' hs'
    rw [hcid]
    exact himp hempty
  · intro st0 s0 o h0 hne0 her
    unfold ReleaseSession
    rw [h0]
    have hlen : ¬s0.subscriptions.length = 0 := by
      intro hl
      exact hne0 (List.length_eq_zero.mp hl)
    have hlen2 : (alistErase o s0.subscriptions).length = 0 := by rw [her]; rfl
    simp only [hlen, if_false, hlen2, if_true]
    unfold bypassSet AddSessionEntry
    simp [alistLookup_insert_self]

/-- Subscriber that releases itself on the first packet. -/
def c4hA : SubscriptionHolder := ⟨"A", 0, fun _ => some ⟨"A", 1, true⟩⟩

/-- Session subscribed only by the self-releasing `A`. -/
def c4sessB : SessionEntry := ⟨600, 50, true, cTup, 0, 0, 1, 60, 1, [("A", c4hA)]⟩

/-- Table state holding `c4sessB`. -/
def c4stB : DState := ⟨[(Tuple.fwdString cTup, c4sessB)], [], 1000, []⟩

theorem callSubscribers_empty_implies_bypass_witness :
    ∃ v m st' inv,
      callSubscribers ⟨cTup, 60, 50, false, true⟩ (Tuple.fwdString cTup)
        c4sessB 0 c4stB = .ok v m st' inv ∧
      ((∀ s', findSessionEntry st' (Tuple.fwdString cTup) = some s' →
          s'.subscriptions = [] → bypassSet s'.ConntrackID st') ∧
       (∀ st0 s0 o, findSessionEntry st0 (Tuple.fwdString cTup) = some s0 →
          s0.subscriptions ≠ [] → alistErase o s0.subscriptions = [] →
          bypassSet s0.ConntrackID (ReleaseSession (Tuple.fwdString cTup) o st0))) := by
  refine ⟨_, _, _, _, rfl, ?_⟩
  refine callSubscribers_empty_implies_bypass _ _ c4sessB 0 c4stB _ _ _ _ rfl ?_ rfl
  exact List.cons_ne_nil _ _

/-! ### Claim C7 -/

/-- C7: a handler pre-empted by the guard timer is merged as the synthesized
result `{Owner: key, PacketMark: 0, SessionRelease: true}`; after the
fan-out its owner is gone from the session's subscription map, and a
subsequent fan-out on the session stored at that key never invokes it. -/
theorem callSubscribers_timeout_release (inp : HandlerInput) (key : String)
    (session : SessionEntry) (pmark : Nat) (st : DState) (v : Int) (m : Nat)
    (st' : DState) (inv : List (String × NfqueueResult)) (o : String)
    (hh : SubscriptionHolder)
    (hmem : (o, hh) ∈ MirrorNfqueueSubscriptions session)
    (hto : hh.NfqueueFunc inp = none)
    (h : callSubscribers inp key session pmark st = .ok v m st' inv) :
    ((o, (⟨o, 0, true⟩ : NfqueueResult)) ∈ inv) ∧
    (∀ s', findSessionEntry st' key = some s' →
      alistLookup o s'.subscriptions = none) ∧
    (∀ inp2 session2 pm2 v2 m2 st2 inv2,
      findSessionEntry st' key = some session2 →
      callSubscribers inp2 key session2 pm2 st' = .ok v2 m2 st2 inv2 →
      o ∉ inv2.map Prod.fst) := by
  obtain ⟨hv, hm, hst, hold, hmap, hperm⟩ := callSubscribers_ok_spec _ _ _ _ _ _ _ _ _ h
  have hmemhold : (o, hh) ∈ hold := hperm.mem_iff.mpr hmem
  have h1 : (o, (⟨o, 0, true⟩ : NfqueueResult)) ∈ inv := by
    rw [hmap]
    refine List.mem_map.mpr ⟨(o, hh), hmemhold, ?_⟩
    simp [resultOf, hto]
  obtain ⟨l1, l2, hsplit⟩ := List.append_of_mem h1
  have h2 : noSub key o st' := by
    rw [hst, hsplit, applyReleases_append]
    have hstep :
        applyReleases key ((o, (⟨o, 0, true⟩ : NfqueueResult)) :: l2)
          (applyReleases key l1 st)
        = applyReleases key l2 (ReleaseSession key o (applyReleases key l1 st)) := by
      simp [applyReleases]
    rw [hstep]
    exact noSub_applyReleases key o l2 _ (noSub_ReleaseSession_self key o _)
  refine ⟨h1, h2, ?_⟩
  intro inp2 session2 pm2 v2 m2 st2 inv2 hs2 hcall2
  obtain ⟨_, _, _, hold2, hmap2, hperm2⟩ := callSubscribers_ok_spec _ _ _ _ _ _ _ _ _ hcall2
  intro hoin
  rw [hmap2] at hoin
  have hin2 : o ∈ hold2.map Prod.fst := by
    simpa [List.map_map, Function.comp] using hoin
  have hin3 : o ∈ (MirrorNfqueueSubscriptions session2).map Prod.fst :=
    (hperm2.map Prod.fst).mem_iff.mp hin2
  have habs := h2 session2 hs2
  rw [alistLookup_eq_none_iff] at habs
  exact habs hin3

/-- Guard-timer-pre-empted subscriber (priority 0). -/
def c7hSlow : SubscriptionHolder := ⟨"slow", 0, fun _ => none⟩

/-- Well-behaved subscriber at priority 1. -/
def c7hB : SubscriptionHolder := ⟨"B", 1, fun _ => some ⟨"B", 2, false⟩⟩

/-- Session subscribed by `slow` and `B`. -/
def c7sess : SessionEntry :=
  ⟨800, 70, true, cTup, 0, 0, 1, 60, 1, [("slow", c7hSlow), ("B", c7hB)]⟩

/-- Table state holding `c7sess`. -/
def c7st : DState := ⟨[(Tuple.fwdString cTup, c7sess)], [], 1000, []⟩

/-- Handler input for the `c7sess` fan-out. -/
def c7inp : HandlerInput := ⟨cTup, 60, 70, false, true⟩

theorem callSubscribers_timeout_release_witness :
    ∃ v m st' inv,
      callSubscribers c7inp (Tuple.fwdString cTup) c7sess 0 c7st
        = .ok v m st' inv ∧
      ("slow", (⟨"slow", 0, true⟩ : NfqueueResult)) ∈ inv := by
  refine ⟨_, _, _, _, rfl, ?_⟩
  refine (callSubscribers_timeout_release c7inp (Tuple.fwdString cTup) c7sess 0 c7st
    _ _ _ _ "slow" c7hSlow ?_ rfl rfl).1
  show ("slow", c7hSlow) ∈ MirrorNfqueueSubscriptions c7sess
  exact List.mem_cons_self _ _

theorem callSubscribers_snapshot_exact_witness :
    ∃ v m st' inv,
      callSubscribers ⟨cTup, 60, 80, false, true⟩ (Tuple.fwdString cTup)
        c10sess 0 c10st = .ok v m st' inv ∧
      (inv.map Prod.fst).Perm ((MirrorNfqueueSubscriptions c10sess).map Prod.fst) := by
  refine ⟨_, _, _, _, rfl, ?_⟩
  exact callSubscribers_snapshot_exact ⟨cTup, 60, 80, false, true⟩
    (Tuple.fwdString cTup) c10sess 0 c10st _ _ _ _ rfl

/-! ### Claim C5 -/

/-- Unconfirmed session keyed under the reverse string of `cTup` (its own
forward tuple is the reverse of the packet's). -/
def c5old : SessionEntry :=
  ⟨500, 42, false, ⟨6, "93.184.216.34", 443, "10.0.0.1", 50000⟩, 0, 0, 3, 100, 3, []⟩

/-- Table state holding `c5old` under the packet's reverse string. -/
def c5st : DState := ⟨[(Tuple.revString cTup, c5old)], [], 1000, []⟩

/-- C5 counterexample: a new-flow packet whose tuple hits an existing
unconfirmed session via the reverse probe does NOT evict it — the removal
targets only the packet's forward tuple string — although a fresh session
with a strictly greater ID is still created. -/
theorem nfqueueCallback_reverse_hit_not_evicted :
    ∃ v m st', nfqueueCallback 101 cPkt 60 0x10000000 5 c5st = .ok v m st' [] ∧
      (findSessionEntry st' (Tuple.revString cTup)).map
        (fun s => s.SessionID) = some 500 ∧
      (findSessionEntry st' (Tuple.fwdString cTup)).map
        (fun s => s.SessionID) = some 1001 := by
  have hb : ¬(Tuple.revString cTup = Tuple.fwdString cTup) := by decide
  have hfwd : findSessionEntry c5st (Tuple.fwdString cTup) = none := by
    show alistLookup (Tuple.fwdString cTup) [(Tuple.revString cTup, c5old)] = none
    simp [alistLookup, hb]
  have hrev : findSessionEntry c5st (Tuple.revString cTup) = some c5old := by
    show alistLookup (Tuple.revString cTup) [(Tuple.revString cTup, c5old)]
      = some c5old
    simp [alistLookup]
  have hpt : parsedTuple cPkt = some cTup := rfl
  have hns : (0x10000000 : Nat) &&& 0x10000000 ≠ 0 := by decide
  have heq := nfqueueCallback_hit_new_unconfirmed 101 60 0x10000000 5 c5st hpt
    (lookupSessionEntry_rev hfwd hrev) hns rfl
  have hne : Tuple.revString cTup ≠ Tuple.fwdString cTup := by
    intro he
    rw [he] at hrev
    rw [hfwd] at hrev
    cases hrev
  have hrm : removeSessionEntry (Tuple.fwdString cTup) c5st = c5st := by
    show ({ c5st with
      sessionTable := alistErase (Tuple.fwdString cTup) c5st.sessionTable } : DState)
        = c5st
    have : alistErase (Tuple.fwdString cTup) c5st.sessionTable = c5st.sessionTable :=
      alistErase_of_lookup_none hfwd
    rw [this]
  rw [heq, hrm]
  have hfd : finishDispatch 101 (Tuple.fwdString cTup)
      (createSessionEntry cTup 101 60 5 c5st).1 false cTup 60 0x10000000 true 5
      (createSessionEntry cTup 101 60 5 c5st).2
      = .ok NfAccept 0x10000000
          (insertSessionEntry (Tuple.fwdString cTup)
            (accountSession 5 60 (createSessionEntry cTup 101 60 5 c5st).1)
            (createSessionEntry cTup 101 60 5 c5st).2) [] := by
    unfold finishDispatch callSubscribers
    rw [callLoop]
    simp [MirrorNfqueueSubscriptions, accountSession, createSessionEntry_fst, c5st]
  rw [hfd]
  refine ⟨_, _, _, rfl, ?_, ?_⟩
  · rw [findSessionEntry_insert_ne _ _ hne, createSessionEntry_snd,
      findSessionEntry_insert_ne _ _ hne, findSessionEntry_idx, hrev]
    rfl
  · rw [findSessionEntry_insert_self]
    rfl

/-- C5 (amended): on a hit with the new-session bit set — (a) a
conntrack-confirmed session is kept: no new session is allocated and the
entry at the found key keeps its session ID; (b) an unconfirmed session
found by the forward probe is replaced at the forward key by a fresh
session with a strictly greater ID; (c) an unconfirmed session found by the
reverse probe is NOT evicted (the removal targets the packet's forward
string): it survives at its key while a fresh session with a strictly
greater ID is created at the forward key. -/
theorem nfqueueCallback_collision_resolution (ctid : Nat) (packet : Packet)
    (packetLength pmark now : Nat) (st : DState) (tup : Tuple) (s : SessionEntry)
    (v : Int) (m : Nat) (st' : DState) (inv : List (String × NfqueueResult)) :
    (∀ key c2s,
      parsedTuple packet = some tup →
      lookupSessionEntry st tup = some (key, s, c2s) →
      pmark &&& 0x10000000 ≠ 0 →
      s.ConntrackConfirmed = true →
      nfqueueCallback ctid packet packetLength pmark now st = .ok v m st' inv →
      st'.sessionIndex = st.sessionIndex ∧
      ∃ s2, findSessionEntry st' key = some s2 ∧ s2.SessionID = s.SessionID) ∧
    (parsedTuple packet = some tup →
      findSessionEntry st (Tuple.fwdString tup) = some s →
      pmark &&& 0x10000000 ≠ 0 →
      s.ConntrackConfirmed = false →
      s.SessionID ≤ st.sessionIndex →
      nfqueueCallback ctid packet packetLength pmark now st = .ok v m st' inv →
      st'.sessionIndex = st.sessionIndex + 1 ∧
      ∃ s2, findSessionEntry st' (Tuple.fwdString tup) = some s2 ∧
        s2.SessionID = st.sessionIndex + 1 ∧ s.SessionID < s2.SessionID) ∧
    (parsedTuple packet = some tup →
      findSessionEntry st (Tuple.fwdString tup) = none →
      findSessionEntry st (Tuple.revString tup) = some s →
      pmark &&& 0x10000000 ≠ 0 →
      s.ConntrackConfirmed = false →
      s.SessionID ≤ st.sessionIndex →
      nfqueueCallback ctid packet packetLength pmark now st = .ok v m st' inv →
      findSessionEntry st' (Tuple.revString tup) = some s ∧
      ∃ s2, findSessionEntry st' (Tuple.fwdString tup) = some s2 ∧
        s2.SessionID = st.sessionIndex + 1 ∧ s.SessionID < s2.SessionID) := by
  refine ⟨?_, ?_, ?_⟩
  · intro key c2s hpt hlk hns hcf h
    rw [nfqueueCallback_hit_new_confirmed ctid packetLength pmark now st
      hpt hlk hns hcf] at h
    obtain ⟨_, _, hst, _⟩ := finishDispatch_ok_spec _ _ _ _ _ _ _ _ _ _ _ _ _ _ h
    constructor
    · rw [hst, applyReleases_sessionIndex]
      rfl
    · obtain ⟨s2, h2, e1, _, _⟩ := applyReleases_lookup_fields key inv _ _
        (findSessionEntry_insert_self key (accountSession now packetLength s) st)

      refine ⟨s2, ?_, ?_⟩
      · rw [hst]
        exact h2
      · rw [e1, accountSession_SessionID]
  · intro hpt hfwd hns hcf hbound h
    rw [nfqueueCallback_hit_new_unconfirmed ctid packetLength pmark now st
      hpt (lookupSessionEntry_fwd hfwd) hns hcf] at h
    obtain ⟨_, _, hst, _⟩ := finishDispatch_ok_spec _ _ _ _ _ _ _ _ _ _ _ _ _ _ h
    constructor
    · rw [hst, applyReleases_sessionIndex]
      rfl
    · obtain ⟨s2, h2, e1, _, _⟩ := applyReleases_lookup_fields (Tuple.fwdString tup)
        inv _ _
        (findSessionEntry_insert_self (Tuple.fwdString tup)
          (accountSession now packetLength
            (createSessionEntry tup ctid packetLength now
              (removeSessionEntry (Tuple.fwdString tup) st)).1)
          (createSessionEntry tup ctid packetLength now
            (removeSessionEntry (Tuple.fwdString tup) st)).2)
      refine ⟨s2, ?_, ?_, ?_⟩
      · rw [hst]
        exact h2
      · rw [e1, accountSession_SessionID, createSessionEntry_fst]
        rfl
      · rw [e1, accountSession_SessionID, createSessionEntry_fst]
        show s.SessionID < (removeSessionEntry (Tuple.fwdString tup) st).sessionIndex + 1
        show s.SessionID < st.sessionIndex + 1
        omega
  · intro hpt hfwd hrev hns hcf hbound h
    have hne : Tuple.revString tup ≠ Tuple.fwdString tup := by
      intro he
      rw [he, hfwd] at hrev
      cases hrev
    rw [nfqueueCallback_hit_new_unconfirmed ctid packetLength pmark now st
      hpt (lookupSessionEntry_rev hfwd hrev) hns hcf] at h
    obtain ⟨_, _, hst, _⟩ := finishDispatch_ok_spec _ _ _ _ _ _ _ _ _ _ _ _ _ _ h
    constructor
    · rw [hst, applyReleases_lookup_other _ _ hne,
        findSessionEntry_insert_ne _ _ hne, createSessionEntry_snd,
        findSessionEntry_insert_ne _ _ hne, findSessionEntry_idx,
        findSessionEntry_remove_ne _ hne]
      exact hrev
    · obtain ⟨s2, h2, e1, _, _⟩ := applyReleases_lookup_fields (Tuple.fwdString tup)
        inv _ _
        (findSessionEntry_insert_self (Tuple.fwdString tup)
          (accountSession now packetLength
            (createSessionEntry tup ctid packetLength now
              (removeSessionEntry (Tuple.fwdString tup) st)).1)
          (createSessionEntry tup ctid packetLength now
            (removeSessionEntry (Tuple.fwdString tup) st)).2)
      refine ⟨s2, ?_, ?_, ?_⟩
      · rw [hst]
        exact h2
      · rw [e1, accountSession_SessionID, createSessionEntry_fst]
        rfl
      · rw [e1, accountSession_SessionID, createSessionEntry_fst]
        show s.SessionID < (removeSessionEntry (Tuple.fwdString tup) st).sessionIndex + 1
        show s.SessionID < st.sessionIndex + 1
        omega

/-- Confirmed session stored under the packet's forward string. -/
def c5aSess : SessionEntry := ⟨500, 42, true, cTup, 0, 0, 3, 100, 3, []⟩

/-- Table state holding `c5aSess`. -/
def c5aSt : DState := ⟨[(Tuple.fwdString cTup, c5aSess)], [], 1000, []⟩

/-- Unconfirmed session stored under the packet's forward string. -/
def c5bSess : SessionEntry := ⟨500, 42, false, cTup, 0, 0, 3, 100, 3, []⟩

/-- Table state holding `c5bSess`. -/
def c5bSt : DState := ⟨[(Tuple.fwdString cTup, c5bSess)], [], 1000, []⟩

theorem nfqueueCallback_collision_resolution_witness :
    (∃ v m st' inv, nfqueueCallback 42 cPkt 60 0x10000000 5 c5aSt
        = .ok v m st' inv ∧
      st'.sessionIndex = 1000 ∧
      ∃ s2, findSessionEntry st' (Tuple.fwdString cTup) = some s2 ∧
        s2.SessionID = 500) ∧
    (∃ v m st' inv, nfqueueCallback 43 cPkt 60 0x10000000 5 c5bSt
        = .ok v m st' inv ∧
      st'.sessionIndex = 1001 ∧
      ∃ s2, findSessionEntry st' (Tuple.fwdString cTup) = some s2 ∧
        s2.SessionID = 1001 ∧ 500 < s2.SessionID) ∧
    (∃ v m st' inv, nfqueueCallback 101 cPkt 60 0x10000000 5 c5st
        = .ok v m st' inv ∧
      findSessionEntry st' (Tuple.revString cTup) = some c5old ∧
      ∃ s2, findSessionEntry st' (Tuple.fwdString cTup) = some s2 ∧
        s2.SessionID = 1001 ∧ 500 < s2.SessionID) := by
  have hfwdA : findSessionEntry c5aSt (Tuple.fwdString cTup) = some c5aSess := by
    show alistLookup (Tuple.fwdString cTup) [(Tuple.fwdString cTup, c5aSess)]
      = some c5aSess
    simp [alistLookup]
  have hfwdB : findSessionEntry c5bSt (Tuple.fwdString cTup) = some c5bSess := by
    show alistLookup (Tuple.fwdString cTup) [(Tuple.fwdString cTup, c5bSess)]
      = some c5bSess
    simp [alistLookup]
  have hb : ¬(Tuple.revString cTup = Tuple.fwdString cTup) := by decide
  have hfwdC : findSessionEntry c5st (Tuple.fwdString cTup) = none := by
    show alistLookup (Tuple.fwdString cTup) [(Tuple.revString cTup, c5old)] = none
    simp [alistLookup, hb]
  have hrevC : findSessionEntry c5st (Tuple.revString cTup) = some c5old := by
    show alistLookup (Tuple.revString cTup) [(Tuple.revString cTup, c5old)]
      = some c5old
    simp [alistLookup]
  have hpt : parsedTuple cPkt = some cTup := rfl
  have hns : (0x10000000 : Nat) &&& 0x10000000 ≠ 0 := by decide
  refine ⟨?_, ?_, ?_⟩
  · refine ⟨_, _, _, _, rfl, ?_⟩
    exact (nfqueueCallback_collision_resolution 42 cPkt 60 0x10000000 5 c5aSt
      cTup c5aSess _ _ _ _).1 (Tuple.fwdString cTup) true hpt
      (lookupSessionEntry_fwd hfwdA) hns rfl rfl
  · refine ⟨_, _, _, _, rfl, ?_⟩
    exact (nfqueueCallback_collision_resolution 43 cPkt 60 0x10000000 5 c5bSt
      cTup c5bSess _ _ _ _).2.1 hpt hfwdB hns rfl (by decide) rfl
  · refine ⟨_, _, _, _, rfl, ?_⟩
    exact (nfqueueCallback_collision_resolution 101 cPkt 60 0x10000000 5 c5st
      cTup c5old _ _ _ _).2.2 hpt hfwdC hrevC hns rfl (by decide) rfl

/-! ### Claim C9 -/

/-- Deterministic subscriber whose result sets mark bit 1 and requests a
session release. -/
def c9hRel : SubscriptionHolder := ⟨"A", 0, fun _ => some ⟨"A", 1, true⟩⟩

/-- Confirmed session subscribed only by the releasing `A`. -/
def c9sess : SessionEntry := ⟨600, 50, true, cTup, 0, 0, 1, 60, 1, [("A", c9hRel)]⟩

/-- Table state holding `c9sess`. -/
def c9st : DState := ⟨[(Tuple.fwdString cTup, c9sess)], [], 1000, []⟩

/-- C9 counterexample: with a deterministic handler that requests a session
release, replaying the identical packet with the identical input mark gives
final mark 1 on the first invocation and 0 on the second (the release
shrank the session's subscriptions), refuting the unqualified claim. -/
theorem nfqueueCallback_replay_mark_differs :
    (∃ st1 inv1, nfqueueCallback 50 cPkt 60 0 5 c9st = .ok NfAccept 1 st1 inv1 ∧
      ∃ st2 inv2, nfqueueCallback 50 cPkt 60 0 6 st1 = .ok NfAccept 0 st2 inv2) ∧
    (1 : Nat) ≠ 0 := by
  refine ⟨⟨_, _, rfl, _, _, rfl⟩, by decide⟩

/-- C9 (amended): replaying the identical packet with the identical input
mark yields the same verdict and final mark, provided every handler in the
registry and in every stored session completes within the guard, never
requests a session release, and does not depend on the direction flag. -/
theorem nfqueueCallback_replay (ctid : Nat) (packet : Packet)
    (packetLength pmark now1 now2 : Nat) (st : DState)
    (v1 v2 : Int) (m1 m2 : Nat) (st1 st2 : DState)
    (inv1 inv2 : List (String × NfqueueResult))
    (hb : BenignState st)
    (h1 : nfqueueCallback ctid packet packetLength pmark now1 st = .ok v1 m1 st1 inv1)
    (h2 : nfqueueCallback ctid packet packetLength pmark now2 st1 = .ok v2 m2 st2 inv2) :
    v1 = v2 ∧ m1 = m2 := by
  constructor
  · rw [(nfqueueCallback_ok_spec _ _ _ _ _ _ _ _ _ _ h1).1,
      (nfqueueCallback_ok_spec _ _ _ _ _ _ _ _ _ _ h2).1]
  cases hpt : parsedTuple packet with
  | none =>
    rw [nfqueueCallback_noip ctid packetLength pmark now1 st hpt] at h1
    cases h1
    rw [nfqueueCallback_noip ctid packetLength pmark now2 st hpt] at h2
    cases h2
    rfl
  | some tup =>
    by_cases hns : pmark &&& 0x10000000 = 0
    · cases hlk : lookupSessionEntry st tup with
      | none =>
        rw [nfqueueCallback_miss_mid ctid packetLength pmark now1 st hpt hlk hns] at h1
        cases h1
        have hlk2 : lookupSessionEntry
            (AddSessionEntry ctid "bypass_packetd" true st) tup = none := hlk
        rw [nfqueueCallback_miss_mid ctid packetLength pmark now2 _ hpt hlk2 hns] at h2
        cases h2
        rfl
      | some ksd =>
        obtain ⟨key, s, c2s⟩ := ksd
        obtain ⟨hnr, _⟩ := hb.2 key s (lookupSessionEntry_find hlk)
        rw [nfqueueCallback_hit_old ctid packetLength pmark now1 st hpt hlk hns] at h1
        obtain ⟨hst1, hold1, hperm1, hm1⟩ :=
          finishDispatch_norel_spec _ _ _ _ _ _ _ _ _ _ _ _ _ _ hnr h1
        have hlk2 : lookupSessionEntry st1 tup
            = some (key, accountSession now1 packetLength s, c2s) := by
          rcases lookupSessionEntry_cases hlk with ⟨hk, hc, _⟩ | ⟨hk, hc, hf, hr⟩
          · subst hk
            subst hc
            rw [hst1]
            exact lookupSessionEntry_fwd (findSessionEntry_insert_self _ _ _)
          · subst hk
            subst hc
            have hne : Tuple.revString tup ≠ Tuple.fwdString tup := by
              intro he
              rw [he, hf] at hr
              cases hr
            rw [hst1]
            refine lookupSessionEntry_rev ?_ (findSessionEntry_insert_self _ _ _)
            rw [findSessionEntry_insert_ne _ _ (Ne.symm hne)]
            exact hf
        rw [nfqueueCallback_hit_old ctid packetLength pmark now2 st1 hpt hlk2 hns] at h2
        have hnr2 : NoRelease (accountSession now1 packetLength s).subscriptions := hnr
        obtain ⟨hst2, hold2, hperm2, hm2⟩ :=
          finishDispatch_norel_spec _ _ _ _ _ _ _ _ _ _ _ _ _ _ hnr2 h2
        rw [hm1, hm2]
        exact fan_mark_eq pmark (fun kv _ => rfl) hperm1 hperm2
    · cases hlk : lookupSessionEntry st tup with
      | none =>
        rw [nfqueueCallback_miss_new ctid packetLength pmark now1 st hpt hlk hns] at h1
        have hnrR : NoRelease
            (createSessionEntry tup ctid packetLength now1 st).1.subscriptions :=
          hb.1.1
        obtain ⟨hst1, hold1, hperm1, hm1⟩ :=
          finishDispatch_norel_spec _ _ _ _ _ _ _ _ _ _ _ _ _ _ hnrR h1
        have hlkf : lookupSessionEntry st1 tup
            = some (Tuple.fwdString tup,
                accountSession now1 packetLength
                  (createSessionEntry tup ctid packetLength now1 st).1, true) := by
          rw [hst1]
          exact lookupSessionEntry_fwd (findSessionEntry_insert_self _ _ _)
        rw [nfqueueCallback_hit_new_unconfirmed ctid packetLength pmark now2 st1
          hpt hlkf hns rfl] at h2
        have hreg : st1.nfqueueList = st.nfqueueList := by rw [hst1]; rfl
        have hnr2 : NoRelease
            (createSessionEntry tup ctid packetLength now2
              (removeSessionEntry (Tuple.fwdString tup) st1)).1.subscriptions := by
          show NoRelease st1.nfqueueList
          rw [hreg]
          exact hb.1.1
        obtain ⟨hst2, hold2, hperm2, hm2⟩ :=
          finishDispatch_norel_spec _ _ _ _ _ _ _ _ _ _ _ _ _ _ hnr2 h2
        rw [hm1, hm2]
        have hperm1a : hold1.Perm st.nfqueueList := hperm1
        have hperm2a : hold2.Perm st1.nfqueueList := hperm2
        rw [hreg] at hperm2a
        exact fan_mark_eq pmark (fun kv _ => rfl) hperm1a hperm2a
      | some ksd =>
        obtain ⟨key, s, c2s⟩ := ksd
        obtain ⟨hnrS, _⟩ := hb.2 key s (lookupSessionEntry_find hlk)
        cases hcf : s.ConntrackConfirmed with
        | true =>
          rw [nfqueueCallback_hit_new_confirmed ctid packetLength pmark now1 st
            hpt hlk hns hcf] at h1
          obtain ⟨hst1, hold1, hperm1, hm1⟩ :=
            finishDispatch_norel_spec _ _ _ _ _ _ _ _ _ _ _ _ _ _ hnrS h1
          have hlk2 : lookupSessionEntry st1 tup
              = some (key, accountSession now1 packetLength s, c2s) := by
            rcases lookupSessionEntry_cases hlk with ⟨hk, hc, _⟩ | ⟨hk, hc, hf, hr⟩
            · subst hk
              subst hc
              rw [hst1]
              exact lookupSessionEntry_fwd (findSessionEntry_insert_self _ _ _)
            · subst hk
              subst hc
              have hne : Tuple.revString tup ≠ Tuple.fwdString tup := by
                intro he
                rw [he, hf] at hr
                cases hr
              rw [hst1]
              refine lookupSessionEntry_rev ?_ (findSessionEntry_insert_self _ _ _)
              rw [findSessionEntry_insert_ne _ _ (Ne.symm hne)]
              exact hf
          have hcf2 : (accountSession now1 packetLength s).ConntrackConfirmed = true := by
            rw [accountSession_ConntrackConfirmed]
            exact hcf
          rw [nfqueueCallback_hit_new_confirmed ctid packetLength pmark now2 st1
            hpt hlk2 hns hcf2] at h2
          have hnr2 : NoRelease (accountSession now1 packetLength s).subscriptions := hnrS
          obtain ⟨hst2, hold2, hperm2, hm2⟩ :=
            finishDispatch_norel_spec _ _ _ _ _ _ _ _ _ _ _ _ _ _ hnr2 h2
          rw [hm1, hm2]
          exact fan_mark_eq pmark (fun kv _ => rfl) hperm1 hperm2
        | false =>
          rw [nfqueueCallback_hit_new_unconfirmed ctid packetLength pmark now1 st
            hpt hlk hns hcf] at h1
          have hnrR : NoRelease
              (createSessionEntry tup ctid packetLength now1
                (removeSessionEntry (Tuple.fwdString tup) st)).1.subscriptions :=
            hb.1.1
          obtain ⟨hst1, hold1, hperm1, hm1⟩ :=
            finishDispatch_norel_spec _ _ _ _ _ _ _ _ _ _ _ _ _ _ hnrR h1
          have hlkf : lookupSessionEntry st1 tup
              = some (Tuple.fwdString tup,
                  accountSession now1 packetLength
                    (createSessionEntry tup ctid packetLength now1
                      (removeSessionEntry (Tuple.fwdString tup) st)).1, true) := by
            rw [hst1]
            exact lookupSessionEntry_fwd (findSessionEntry_insert_self _ _ _)
          rw [nfqueueCallback_hit_new_unconfirmed ctid packetLength pmark now2 st1
            hpt hlkf hns rfl] at h2
          have hreg : st1.nfqueueList = st.nfqueueList := by rw [hst1]; rfl
          have hnr2 : NoRelease
              (createSessionEntry tup ctid packetLength now2
                (removeSessionEntry (Tuple.fwdString tup) st1)).1.subscriptions := by
            show NoRelease st1.nfqueueList
            rw [hreg]
            exact hb.1.1
          obtain ⟨hst2, hold2, hperm2, hm2⟩ :=
            finishDispatch_norel_spec _ _ _ _ _ _ _ _ _ _ _ _ _ _ hnr2 h2
          rw [hm1, hm2]
          have hperm1a : hold1.Perm st.nfqueueList := hperm1
          have hperm2a : hold2.Perm st1.nfqueueList := hperm2
          rw [hreg] at hperm2a
          have hagree : ∀ kv ∈ st.nfqueueList,
              kv.2.NfqueueFunc
                (⟨tup, packetLength, ctid, true, c2s⟩ : HandlerInput)
              = kv.2.NfqueueFunc
                (⟨tup, packetLength, ctid, true, true⟩ : HandlerInput) :=
            fun kv hm => hb.1.2 kv hm _ _ rfl rfl rfl rfl
          exact fan_mark_eq pmark hagree hperm1a hperm2a

/-- Benign subscriber used in the replay witness. -/
def c9wh : SubscriptionHolder := ⟨"A", 0, fun _ => some ⟨"A", 2, false⟩⟩

/-- Empty-table state whose registry holds only `c9wh`. -/
def c9wst : DState := ⟨[], [], 1000, [("A", c9wh)]⟩

theorem c9wst_benign : BenignState c9wst := by
  refine ⟨⟨?_, ?_⟩, ?_⟩
  · intro kv hkv i
    rcases List.mem_singleton.mp hkv with rfl
    exact ⟨⟨"A", 2, false⟩, rfl, rfl⟩
  · intro kv hkv i1 i2 _ _ _ _
    rcases List.mem_singleton.mp hkv with rfl
    rfl
  · intro k s h
    cases h

theorem nfqueueCallback_replay_witness :
    ∃ v1 m1 st1 inv1,
      nfqueueCallback 9 cPkt 60 0x10000000 5 c9wst = .ok v1 m1 st1 inv1 ∧
      ∃ v2 m2 st2 inv2,
        nfqueueCallback 9 cPkt 60 0x10000000 6 st1 = .ok v2 m2 st2 inv2 ∧
        v1 = v2 ∧ m1 = m2 := by
  refine ⟨_, _, _, _, rfl, _, _, _, _, rfl, ?_⟩
  exact nfqueueCallback_replay 9 cPkt 60 0x10000000 5 6 c9wst _ _ _ _ _ _ _ _
    c9wst_benign rfl rfl

end Packetd
